import Mathlib

/-!
Resumable package download (`common/net_functions.go`)

A shallow embedding of `DownloadPackage` and `ProgressProxyReader` together with the
pieces of the Go runtime they touch: `*os.File` (Stat, Write), `net/http`
(NewRequest, Client.Do, the response body) and the generic loop of `io.Copy`.

Conventions.
* `int64` values are integers; every `int64` operation that can overflow is followed by
  `wrapInt64`.
* A Go `error` is `Option GoError`, `none` being `nil`.
* Stateful objects are passed explicitly: the destination file, the response body (with a
  log of the counts its reads returned and of its closes), the state of the caller's
  progress handler and the log of the calls made to `net/http`.
-/

namespace Common

/-! ## Go runtime -/

abbrev Byte := UInt8

/-- Go `error` values: the sentinel `io.EOF`, the sentinel `io.ErrShortWrite`
(both compared by identity), or any other error, known by its message. -/
inductive GoError where
  | EOF
  | ErrShortWrite
  | other (msg : String)
  deriving DecidableEq, Repr

/-- The `Error()` method. -/
def GoError.Error : GoError → String
  | .EOF => "EOF"
  | .ErrShortWrite => "short write"
  | .other m => m

/-- Reduction of an integer to the signed 64-bit range (two's complement wrap-around). -/
def wrapInt64 (x : Int) : Int :=
  (x + 9223372036854775808) % 18446744073709551616 - 9223372036854775808

/-- The values an `int64` can hold. -/
def isInt64 (x : Int) : Prop := -9223372036854775808 ≤ x ∧ x < 9223372036854775808

instance (x : Int) : Decidable (isInt64 x) := by unfold isInt64; infer_instance

/-- The constant `time.Second`, in nanoseconds. -/
def Second : Int := 1000000000

/-- The verb `%d` of `fmt` on an integer: its decimal representation. -/
def fmtD (x : Int) : String := toString x

/-! ### `*os.File` -/

/-- An open file: its bytes, the offset of the next write, whether `Stat` fails, and how
many more bytes the device accepts before writes start failing (`none`: no limit). -/
structure File where
  content : List Byte
  offset : Nat
  statErr : Option GoError
  room : Option (Nat × GoError)
  deriving DecidableEq, Repr

/-- The method `Stat` followed by `Size`: the length of the file, or the error. -/
def File.Stat (f : File) : Except GoError Int :=
  match f.statErr with
  | some e => .error e
  | none => .ok (f.content.length : Int)

/-- The bytes `b` stored at the current offset (a gap past the end is zero-filled), the
offset advanced past them. -/
def File.put (f : File) (b : List Byte) : File :=
  { f with
    content := f.content.take f.offset ++ List.replicate (f.offset - f.content.length) 0
      ++ b ++ f.content.drop (f.offset + b.length)
    offset := f.offset + b.length }

/-- The method `Write`: returns `(n, err)` and the file afterwards; `err` is non-nil
exactly when `n < len(b)`, and the first `n` bytes of `b` have been written. -/
def File.Write (f : File) (b : List Byte) : (Int × Option GoError) × File :=
  match f.room with
  | none => (((b.length : Int), none), f.put b)
  | some (c, e) =>
    if b.length ≤ c then
      (((b.length : Int), none), { f.put b with room := some (c - b.length, e) })
    else
      (((c : Int), some e), { f.put (b.take c) with room := some (0, e) })

/-! ### `io.Reader` and `io.Copy` -/

/-- What one call `Read(p)` hands back: the count, the error and the buffer afterwards. -/
structure ReadResult where
  n : Int
  err : Option GoError
  p : List Byte
  deriving DecidableEq, Repr

/-- The method `Read(p []byte) (n int, err error)` of a reader whose state has type `σ`. -/
abbrev ReadFn (σ : Type) := List Byte → σ → ReadResult × σ

/-- The result of `io.Copy`: bytes written, error, and both ends afterwards. -/
structure CopyResult (σ : Type) where
  written : Int
  err : Option GoError
  dst : File
  src : σ

/-- The write half of one round of the copy loop:
`if nr > 0 { nw, ew := dst.Write(buf[0:nr]); if nw > 0 { written += nw }; ... }`.
Returns the new count, the error that breaks the loop (if any) and the file. -/
def copyWrite (dst : File) (res : ReadResult) (written : Int) : Int × Option GoError × File :=
  if 0 < res.n then
    match dst.Write (res.p.take res.n.toNat) with
    | ((nw, ew), dst1) =>
      let written1 := if 0 < nw then wrapInt64 (written + nw) else written
      match ew with
      | some e => (written1, some e, dst1)
      | none => if res.n ≠ nw then (written1, some .ErrShortWrite, dst1) else (written1, none, dst1)
  else (written, none, dst)

/-- The loop of `io.Copy` (`copyBuffer`), at most `fuel` rounds: read into the buffer,
write what was read, stop at the first write error, short write, read error or EOF (EOF is
not reported as an error). `none` when the rounds are used up. -/
def copyLoop {σ : Type} (rd : ReadFn σ) : Nat → List Byte → Int → File → σ → Option (CopyResult σ)
  | 0, _, _, _, _ => none
  | fuel + 1, buf, written, dst, s =>
    match rd buf s with
    | (res, s1) =>
      match copyWrite dst res written with
      | (written1, some e, dst1) => some ⟨written1, some e, dst1, s1⟩
      | (written1, none, dst1) =>
        match res.err with
        | some er => some ⟨written1, if er = .EOF then none else some er, dst1, s1⟩
        | none => copyLoop rd fuel res.p written1 dst1 s1

/-- The size of the buffer `io.Copy` allocates: `32 * 1024`. -/
def copyBufSize : Nat := 32 * 1024

/-- The function `io.Copy(dst, src)` with a fresh 32 KiB buffer. -/
def ioCopy {σ : Type} (fuel : Nat) (rd : ReadFn σ) (dst : File) (s : σ) : Option (CopyResult σ) :=
  copyLoop rd fuel (List.replicate copyBufSize 0) 0 dst s

/-! ### `net/http` -/

/-- One thing the network will deliver on the response body: some bytes, and possibly an
error (or EOF) arriving with the last of them. -/
structure ReadStep where
  data : List Byte
  err : Option GoError
  deriving DecidableEq, Repr

/-- A response body: what is still to be delivered, the counts returned by the reads made
so far (oldest first) and how many times it has been closed. Once `pending` is used up the
body is at EOF. -/
structure Body where
  pending : List ReadStep
  served : List Int
  closed : Nat
  deriving DecidableEq, Repr

/-- The method `Read` of a response body: at most `len(p)` bytes of the next delivery are
stored at the front of `p`; the error of a delivery is returned with its last bytes. -/
def Body.Read : ReadFn Body := fun p b =>
  if 0 < b.closed then
    (⟨0, some (.other "http: read on closed response body"), p⟩,
      { b with served := b.served ++ [0] })
  else
    match b.pending with
    | [] => (⟨0, some .EOF, p⟩, { b with served := b.served ++ [0] })
    | s :: rest =>
      if s.data.length ≤ p.length then
        (⟨(s.data.length : Int), s.err, s.data ++ p.drop s.data.length⟩,
          { b with pending := rest, served := b.served ++ [(s.data.length : Int)] })
      else
        (⟨(p.length : Int), none, s.data.take p.length⟩,
          { b with pending := ⟨s.data.drop p.length, s.err⟩ :: rest,
                   served := b.served ++ [(p.length : Int)] })

/-- The method `Close` of a response body. -/
def Body.Close (b : Body) : Body := { b with closed := b.closed + 1 }

/-- A number of reads with a non-empty buffer after which the body has reported EOF or an
error. -/
def Body.readBound (b : Body) : Nat := (b.pending.map fun s => s.data.length + 1).sum + 1

structure Request where
  Method : String
  URL : String
  Header : List (String × String)
  deriving DecidableEq, Repr

/-- The method `Header.Add`. -/
def Request.addHeader (r : Request) (key value : String) : Request :=
  { r with Header := r.Header ++ [(key, value)] }

structure Client where
  Timeout : Int
  deriving DecidableEq, Repr

structure Response where
  StatusCode : Int
  Body : List ReadStep
  deriving DecidableEq, Repr

/-- The network as seen through `net/http`: for which URLs `http.NewRequest` fails (the
URL does not parse), and what `Client.Do` answers. -/
structure Net where
  parseErr : String → Option GoError
  roundTrip : Client → Request → Except GoError Response

/-- The function `http.NewRequest(method, url, nil)`. -/
def Net.NewRequest (net : Net) (method url : String) : Except GoError Request :=
  match net.parseErr url with
  | some e => .error e
  | none => .ok ⟨method, url, []⟩

/-- The calls made to `net/http`, for the record. -/
inductive HttpCall where
  | NewRequest (method url : String)
  | Do (client : Client) (request : Request)
  deriving DecidableEq, Repr

/-! ## `ProgressProxyReader` -/

/-- The struct `ProgressProxyReader`: the embedded reader (state `ρ`) and the callback
`handleProgressUpdateFunc` (acting on a state `η` of its own). -/
structure ProgressProxyReader (ρ η : Type) where
  Reader : ReadFn ρ
  handleProgressUpdateFunc : Int → η → η

/-- The method `Read`:
`n, err = r.Reader.Read(p); r.handleProgressUpdateFunc(int64(n)); return`. -/
def ProgressProxyReader.Read {ρ η : Type} (r : ProgressProxyReader ρ η) : ReadFn (ρ × η) :=
  fun p s =>
    match r.Reader p s.1 with
    | (res, s1) => (res, (s1, r.handleProgressUpdateFunc res.n s.2))

/-- The results of reading with the buffers `bufs` one after the other. -/
def readSeq {σ : Type} (rd : ReadFn σ) : List (List Byte) → σ → List ReadResult
  | [], _ => []
  | p :: ps, s => (rd p s).1 :: readSeq rd ps (rd p s).2

/-! ## `DownloadPackage` -/

/-- The type `DownloadPackageProgressChangedHandler`, acting on the state `η` of the
caller: `func(fileSize int64, downloadedSoFar int64)`. -/
abbrev DownloadPackageProgressChangedHandler (η : Type) := Int → Int → η → η

/-- What a call of `DownloadPackage` leaves behind: the returned error, the destination,
the state of the progress handler, the calls made to `net/http` and the response body (if
a response was received). -/
structure Outcome (η : Type) where
  err : Option GoError
  file : Option File
  progress : η
  http : List HttpCall
  body : Option Body

/-- The size from which the download resumes (lines 95-106). -/
def initialSizeOf (stat : Except GoError Int) (totalSize : Int) : Int :=
  match stat with
  | .error _ => 0
  | .ok fileSize => if fileSize ≥ totalSize then 0 else fileSize

/-- The client timeout (line 108):
`time.Duration(totalSize-initialSize) / 57344 * time.Second`. -/
def timeoutOf (totalSize initialSize : Int) : Int :=
  wrapInt64 (Int.tdiv (wrapInt64 (totalSize - initialSize)) 57344 * Second)

/-- The closure handed to the `ProgressProxyReader`: it owns `downloadedSoFar` and calls
the handler of the caller. -/
def progressClosure {η : Type} (totalSize : Int) (handler : DownloadPackageProgressChangedHandler η) :
    Int → Int × η → Int × η :=
  fun progressDelta st =>
    let downloadedSoFar := wrapInt64 (st.1 + progressDelta)
    (downloadedSoFar, handler totalSize downloadedSoFar st.2)

/-- The function `DownloadPackage(URL, initialData, totalSize, progressChangedHandler)`.
`h0` is the state of the caller's handler at the call. The copy loop is given
`Body.readBound` rounds, which is enough for it to finish (`copyBody_isSome`). -/
def DownloadPackage {η : Type} (net : Net) (URL : String) (initialData : Option File)
    (totalSize : Int) (progressChangedHandler : Option (DownloadPackageProgressChangedHandler η))
    (h0 : η) : Option (Outcome η) :=
  match initialData with
  | none => some ⟨some (.other "Cannot fill a nil file pointer"), none, h0, [], none⟩
  | some file =>
    let initialSize := initialSizeOf file.Stat totalSize
    let client : Client := ⟨timeoutOf totalSize initialSize⟩
    match net.NewRequest "GET" URL with
    | .error err =>
      some ⟨some (.other ("Cannot create HTTP to URL " ++ URL ++ " request: " ++ err.Error)),
        some file, h0, [.NewRequest "GET" URL], none⟩
    | .ok request0 =>
      let request :=
        if 0 < initialSize then request0.addHeader "Range" ("bytes=" ++ fmtD initialSize ++ "-")
        else request0
      let calls := [HttpCall.NewRequest "GET" URL, HttpCall.Do client request]
      match net.roundTrip client request with
      | .error err =>
        some ⟨some (.other ("Cannot fetch " ++ URL ++ " Response creation error: " ++ err.Error)),
          some file, h0, calls, none⟩
      | .ok response =>
        let body : Body := ⟨response.Body, [], 0⟩
        if response.StatusCode ≠ 200 ∧ response.StatusCode ≠ 206 ∧ response.StatusCode ≠ 416 then
          some ⟨some (.other ("Cannot fetch " ++ URL ++ " Source responded with code "
              ++ fmtD response.StatusCode)),
            some file, h0, calls, some body.Close⟩
        else
          match progressChangedHandler with
          | none =>
            (ioCopy body.readBound Body.Read file body).map fun r =>
              ⟨r.err.map fun err =>
                  .other ("Cannot read response body from " ++ URL ++ " : " ++ err.Error),
                some r.dst, h0, calls, some r.src.Close⟩
          | some handler =>
            let progressProxyReader : ProgressProxyReader Body (Int × η) :=
              ⟨Body.Read, progressClosure totalSize handler⟩
            (ioCopy body.readBound progressProxyReader.Read file (body, (initialSize, h0))).map
              fun r =>
                ⟨r.err.map fun err =>
                    .other ("Cannot read response body from " ++ URL ++ " : " ++ err.Error),
                  some r.dst, r.src.2.2, calls, some r.src.1.Close⟩

/-! ## Auxiliary notions for stating the properties -/

/-- The counts returned by the reads that `copyLoop` performs, in order. -/
def copyCounts {σ : Type} (rd : ReadFn σ) : Nat → List Byte → Int → File → σ → List Int
  | 0, _, _, _, _ => []
  | fuel + 1, buf, written, dst, s =>
    match rd buf s with
    | (res, s1) =>
      match copyWrite dst res written with
      | (_, some _, _) => [res.n]
      | (written1, none, dst1) =>
        match res.err with
        | some _ => [res.n]
        | none => res.n :: copyCounts rd fuel res.p written1 dst1 s1

/-- The bytes a body delivers up to its end: the data of the deliveries up to and
including the first one that carries an error or EOF. -/
def streamBytes : List ReadStep → List Byte
  | [] => []
  | s :: rest =>
    match s.err with
    | some _ => s.data
    | none => s.data ++ streamBytes rest

/-- The running totals `d + n1`, `d + n1 + n2`, ... -/
def runningTotals (d : Int) : List Int → List Int
  | [] => []
  | n :: ns => (d + n) :: runningTotals (d + n) ns

/-- The request `DownloadPackage` hands to `Client.Do` when it resumes from `initialSize`. -/
def requestOf (URL : String) (initialSize : Int) : Request :=
  if 0 < initialSize then
    (Request.mk "GET" URL []).addHeader "Range" ("bytes=" ++ fmtD initialSize ++ "-")
  else Request.mk "GET" URL []

/-- The two calls `DownloadPackage` makes to `net/http` once the request could be built. -/
def callsOf (URL : String) (totalSize initialSize : Int) : List HttpCall :=
  [.NewRequest "GET" URL, .Do ⟨timeoutOf totalSize initialSize⟩ (requestOf URL initialSize)]

/-- The error `DownloadPackage` makes of an error of the copy. -/
def copyError (URL : String) (err : GoError) : GoError :=
  .other ("Cannot read response body from " ++ URL ++ " : " ++ err.Error)

/-- The status codes `DownloadPackage` accepts. -/
def okStatus (c : Int) : Prop := c = 200 ∨ c = 206 ∨ c = 416

instance (c : Int) : Decidable (okStatus c) := by unfold okStatus; infer_instance

/-- A progress handler that keeps the list of the calls it received. -/
def recordCalls : DownloadPackageProgressChangedHandler (List (Int × Int)) :=
  fun fileSize downloadedSoFar log => log ++ [(fileSize, downloadedSoFar)]

/-- The state of the handler after the copy: untouched without a handler, else the
closure applied to the count of each read. -/
def progressAfter {η : Type} (totalSize initialSize : Int)
    (handler : Option (DownloadPackageProgressChangedHandler η)) (h0 : η) (counts : List Int) : η :=
  match handler with
  | none => h0
  | some h => (counts.foldl (fun e n => progressClosure totalSize h n e) (initialSize, h0)).2

/-- The network `net` with every response of status `a` relabelled as status `b`. -/
def Net.replaceStatus (net : Net) (a b : Int) : Net :=
  { net with
    roundTrip := fun c r =>
      match net.roundTrip c r with
      | .error e => .error e
      | .ok resp => .ok { resp with StatusCode := if resp.StatusCode = a then b else resp.StatusCode } }

/-- The part of the bytes `D` that a device with the write allowance `room` takes. -/
def accepted (room : Option (Nat × GoError)) (D : List Byte) : List Byte :=
  match room with
  | none => D
  | some (c, _) => D.take c

/-! ## Concrete inputs -/

/-- A network on which every URL parses and every request is answered with the status
`code` and the body `body`. -/
def answering (code : Int) (body : List ReadStep) : Net :=
  ⟨fun _ => none, fun _ _ => .ok ⟨code, body⟩⟩

/-- A network on which every URL parses and no request gets through. -/
def unreachable : Net :=
  ⟨fun _ => none, fun _ _ => .error (.other "dial tcp: connection refused")⟩

/-- An open file of `n` zero bytes, positioned at its end, with no limit on writes. -/
def zeros (n : Nat) : File := ⟨List.replicate n 0, n, none, none⟩

/-- An open file of `n` zero bytes, positioned at its end, on a device that takes `c` more
bytes and then fails every write with `e`. -/
def zerosUpTo (n c : Nat) (e : GoError) : File := ⟨List.replicate n 0, n, none, some (c, e)⟩

/-! ## Lemmas on the runtime model -/

theorem wrapInt64_of_isInt64 {x : Int} (h : isInt64 x) : wrapInt64 x = x := by
  unfold isInt64 at h
  unfold wrapInt64
  omega

theorem wrapInt64_add_left (a b : Int) : wrapInt64 (wrapInt64 a + b) = wrapInt64 (a + b) := by
  unfold wrapInt64
  omega

theorem File.Write_spec (f : File) (b : List Byte) :
    ∃ k : Nat, k ≤ b.length ∧ (f.Write b).1.1 = (k : Int) ∧
      ((f.Write b).1.2 = none → k = b.length) ∧
      (f.Write b).2.offset = f.offset + k ∧
      (f.Write b).2.statErr = f.statErr ∧
      (f.offset = f.content.length →
        (f.Write b).2.content = f.content ++ b.take k ∧
        (f.Write b).2.offset = (f.Write b).2.content.length) := by
  unfold File.Write
  rcases hr : f.room with _ | ⟨c, e⟩
  · refine ⟨b.length, le_refl _, rfl, fun _ => rfl, rfl, rfl, ?_⟩
    intro hpos
    simp [File.put, hpos]
  · by_cases hc : b.length ≤ c
    · simp only [hc, if_true]
      refine ⟨b.length, le_refl _, rfl, fun _ => rfl, rfl, rfl, ?_⟩
      intro hpos
      simp [File.put, hpos]
    · simp only [hc, if_false]
      have hlen : (b.take c).length = c := by simp; omega
      refine ⟨c, by omega, rfl, by simp, by simp [File.put, hlen], rfl, ?_⟩
      intro hpos
      simp [File.put, hpos]

theorem copyWrite_spec (dst : File) (res : ReadResult) (w : Int) (d : List Byte)
    (hd : res.p.take res.n.toNat = d) (hn : res.n = (d.length : Int)) :
    ∃ k : Nat, k ≤ d.length ∧
      ((copyWrite dst res w).2.1 = none → k = d.length) ∧
      (copyWrite dst res w).2.2.offset = dst.offset + k ∧
      (copyWrite dst res w).2.2.statErr = dst.statErr ∧
      (dst.offset = dst.content.length →
        (copyWrite dst res w).2.2.content = dst.content ++ d.take k ∧
        (copyWrite dst res w).2.2.offset = (copyWrite dst res w).2.2.content.length) := by
  unfold copyWrite
  by_cases hpos : 0 < res.n
  · obtain ⟨k, hk, hnw, hew, hoff, hstat, hcont⟩ := File.Write_spec dst d
    rw [if_pos hpos, hd]
    rcases hW : dst.Write d with ⟨⟨nw, ew⟩, dst1⟩
    rw [hW] at hnw hew hoff hstat hcont
    simp only at hnw hew hoff hstat hcont
    refine ⟨k, hk, ?_⟩
    cases ew with
    | some e => exact ⟨by simp, hoff, hstat, hcont⟩
    | none =>
      have hkd : k = d.length := hew rfl
      have : res.n = nw := by rw [hn, hnw, hkd]
      simp only [this, ne_eq, not_true_eq_false, if_false]
      exact ⟨fun _ => hkd, hoff, hstat, hcont⟩
  · rw [if_neg hpos]
    have hd0 : d.length = 0 := by omega
    have hdnil : d = [] := List.length_eq_zero.mp hd0
    refine ⟨0, by omega, fun _ => hd0.symm, rfl, rfl, ?_⟩
    intro h
    simp [hdnil, h]

/-- One read of a body that is still open. -/
theorem Body.Read_spec (p : List Byte) (b : Body) (hopen : b.closed = 0) :
    ∃ d : List Byte,
      (Body.Read p b).1.p.take (Body.Read p b).1.n.toNat = d ∧
      (Body.Read p b).1.n = (d.length : Int) ∧
      (Body.Read p b).1.p.length = p.length ∧
      (Body.Read p b).2.closed = 0 ∧
      (Body.Read p b).2.served = b.served ++ [(Body.Read p b).1.n] ∧
      ((Body.Read p b).1.err = none →
        streamBytes b.pending = d ++ streamBytes (Body.Read p b).2.pending ∧
        (0 < p.length → (Body.Read p b).2.readBound < b.readBound)) ∧
      (∀ e, (Body.Read p b).1.err = some e → streamBytes b.pending = d) := by
  unfold Body.Read
  simp only [hopen, lt_irrefl, if_false]
  rcases hp : b.pending with _ | ⟨s, rest⟩
  · refine ⟨[], ?_⟩
    simp [streamBytes, hopen]
  · by_cases hle : s.data.length ≤ p.length
    · simp only [hle, if_true]
      refine ⟨s.data, ?_⟩
      simp only [Int.toNat_ofNat, List.take_left', List.length_append, List.length_drop,
        true_and, hopen]
      refine ⟨by omega, ?_, ?_⟩
      · intro herr
        simp only [streamBytes, herr, true_and]
        intro _
        simp [Body.readBound, hp]
      · intro e herr
        simp [streamBytes, herr]
    · simp only [hle, if_false]
      have hlen : (s.data.take p.length).length = p.length := by simp; omega
      refine ⟨s.data.take p.length, ?_⟩
      simp only [Int.toNat_ofNat, hlen, List.take_take, min_self, true_and, hopen]
      refine ⟨?_, ?_⟩
      · intro _
        constructor
        · cases herr : s.err with
          | none =>
            simp only [streamBytes, herr]
            rw [← List.append_assoc, List.take_append_drop]
          | some e => simp [streamBytes, herr]
        · intro hpos
          simp [Body.readBound, hp]
          omega
      · intro e herr
        simp at herr

/-! ## Lemmas on the copy loop -/

/-- Copying through a `ProgressProxyReader` is copying from the embedded reader, the
callback being applied to the count of each read in turn. -/
theorem copyLoop_proxy {ρ η : Type} (rd : ReadFn ρ) (h : Int → η → η) :
    ∀ (fuel : Nat) (buf : List Byte) (w : Int) (dst : File) (s : ρ) (e : η),
      copyLoop (ProgressProxyReader.Read ⟨rd, h⟩) fuel buf w dst (s, e) =
        (copyLoop rd fuel buf w dst s).map fun r =>
          ⟨r.written, r.err, r.dst,
            (r.src, (copyCounts rd fuel buf w dst s).foldl (fun e n => h n e) e)⟩ := by
  intro fuel
  induction fuel with
  | zero => intros; rfl
  | succ fuel ih =>
    intro buf w dst s e
    simp only [copyLoop, copyCounts, ProgressProxyReader.Read]
    rcases hr : rd buf s with ⟨res, s1⟩
    simp only
    rcases hw : copyWrite dst res w with ⟨w1, ew, dst1⟩
    cases ew with
    | some e1 => simp
    | none =>
      simp only
      cases herr : res.err with
      | some er => simp
      | none => simp [ih]

/-- The copy loop on a response body finishes within `Body.readBound` rounds. -/
theorem copyLoop_body_isSome :
    ∀ (fuel : Nat) (buf : List Byte) (w : Int) (dst : File) (b : Body),
      0 < buf.length → b.readBound ≤ fuel → b.closed = 0 →
      ∃ r, copyLoop Body.Read fuel buf w dst b = some r := by
  intro fuel
  induction fuel with
  | zero =>
    intro buf w dst b _ hb _
    simp [Body.readBound] at hb
  | succ fuel ih =>
    intro buf w dst b hbuf hb hopen
    obtain ⟨d, -, -, hlen, hcl, -, hnone, -⟩ := Body.Read_spec buf b hopen
    simp only [copyLoop]
    rcases hr : Body.Read buf b with ⟨res, b1⟩
    rw [hr] at hlen hcl hnone
    simp only at hlen hcl hnone ⊢
    rcases hw : copyWrite dst res w with ⟨w1, ew, dst1⟩
    cases ew with
    | some e1 => exact ⟨_, rfl⟩
    | none =>
      simp only
      cases herr : res.err with
      | some er => exact ⟨_, rfl⟩
      | none =>
        simp only
        have hdec := (hnone herr).2 hbuf
        exact ih res.p w1 dst1 b1 (by omega) (by omega) hcl

/-- What the copy loop does to an open response body and to the destination. -/
theorem copyLoop_body :
    ∀ (fuel : Nat) (buf : List Byte) (w : Int) (dst : File) (b : Body) (r : CopyResult Body),
      b.closed = 0 → copyLoop Body.Read fuel buf w dst b = some r →
      r.src.closed = 0 ∧
      r.src.served = b.served ++ copyCounts Body.Read fuel buf w dst b ∧
      (∀ n ∈ copyCounts Body.Read fuel buf w dst b, 0 ≤ n) ∧
      r.dst.statErr = dst.statErr ∧
      ∃ wr : List Byte, wr <+: streamBytes b.pending ∧
        r.dst.offset = dst.offset + wr.length ∧
        (dst.offset = dst.content.length → r.dst.content = dst.content ++ wr) ∧
        (r.err = none → wr = streamBytes b.pending ∧
          (copyCounts Body.Read fuel buf w dst b).sum = (wr.length : Int)) := by
  intro fuel
  induction fuel with
  | zero =>
    intro buf w dst b r _ h
    simp [copyLoop] at h
  | succ fuel ih =>
    intro buf w dst b r hopen h
    obtain ⟨d, hd, hn, -, hcl, hserved, hnone, hsome⟩ := Body.Read_spec buf b hopen
    simp only [copyLoop, copyCounts] at h ⊢
    rcases hr : Body.Read buf b with ⟨res, b1⟩
    rw [hr] at hd hn hcl hserved hnone hsome h
    simp only at hd hn hcl hserved hnone hsome h ⊢
    obtain ⟨k, hk, hknone, hoff, hstat, hcont⟩ := copyWrite_spec dst res w d hd hn
    rcases hw : copyWrite dst res w with ⟨w1, ew, dst1⟩
    rw [hw] at hknone hoff hstat hcont h
    simp only at hknone hoff hstat hcont h ⊢
    have hn0 : (0 : Int) ≤ res.n := by rw [hn]; exact Int.ofNat_nonneg _
    have hpre : d <+: streamBytes b.pending := by
      cases herr : res.err with
      | none => rw [(hnone herr).1]; exact List.prefix_append _ _
      | some e => rw [hsome e herr]
    cases ew with
    | some e1 =>
      simp only [Option.some.injEq] at h
      subst h
      refine ⟨hcl, hserved, by simpa using hn0, hstat, d.take k, ?_, ?_, ?_, ?_⟩
      · exact (List.take_prefix k d).trans hpre
      · simp [hoff, Nat.min_eq_left hk]
      · intro hp; exact (hcont hp).1
      · intro hc; simp at hc
    | none =>
      have hkd : k = d.length := hknone rfl
      subst hkd
      rw [List.take_length] at hcont
      simp only at h ⊢
      cases herr : res.err with
      | some er =>
        rw [herr] at h
        simp only [Option.some.injEq] at h
        subst h
        refine ⟨hcl, hserved, by simpa using hn0, hstat, d, hpre, hoff, ?_, ?_⟩
        · intro hp; exact (hcont hp).1
        · intro _
          exact ⟨(hsome er herr).symm, by simpa using hn⟩
      | none =>
        rw [herr] at h
        simp only at h
        obtain ⟨ih1, ih2, ih3, ih4, wr, hwr1, hwr2, hwr3, hwr4⟩ := ih res.p w1 dst1 b1 r hcl h
        refine ⟨ih1, ?_, ?_, ?_, d ++ wr, ?_, ?_, ?_, ?_⟩
        · rw [ih2, hserved]; simp
        · intro n hmem
          rcases List.mem_cons.mp hmem with h1 | h1
          · rw [h1]; exact hn0
          · exact ih3 n h1
        · rw [ih4, hstat]
        · rw [(hnone herr).1]
          exact (List.prefix_append_right_inj d).mpr hwr1
        · rw [hwr2, hoff, List.length_append]; omega
        · intro hp
          rw [hwr3 (hcont hp).2, (hcont hp).1, List.append_assoc]
        · intro hc
          obtain ⟨e1, e2⟩ := hwr4 hc
          refine ⟨by rw [e1, (hnone herr).1], ?_⟩
          rw [List.sum_cons, e2, hn, List.length_append]
          push_cast
          ring

/-! ## The paths through `DownloadPackage` -/

section paths

variable {η : Type} (net : Net) (URL : String) (file : File) (totalSize : Int)
  (handler : Option (DownloadPackageProgressChangedHandler η)) (h0 : η)

theorem DownloadPackage_parseErr (e : GoError) (hparse : net.parseErr URL = some e) :
    DownloadPackage net URL (some file) totalSize handler h0 =
      some ⟨some (.other ("Cannot create HTTP to URL " ++ URL ++ " request: " ++ e.Error)),
        some file, h0, [.NewRequest "GET" URL], none⟩ := by
  simp only [DownloadPackage, Net.NewRequest, hparse]

theorem DownloadPackage_doErr (e : GoError) (hparse : net.parseErr URL = none)
    (hrt : net.roundTrip ⟨timeoutOf totalSize (initialSizeOf file.Stat totalSize)⟩
      (requestOf URL (initialSizeOf file.Stat totalSize)) = .error e) :
    DownloadPackage net URL (some file) totalSize handler h0 =
      some ⟨some (.other ("Cannot fetch " ++ URL ++ " Response creation error: " ++ e.Error)),
        some file, h0, callsOf URL totalSize (initialSizeOf file.Stat totalSize), none⟩ := by
  unfold requestOf at hrt
  simp only [DownloadPackage, Net.NewRequest, hparse, hrt, callsOf, requestOf]

theorem DownloadPackage_badStatus (resp : Response) (hparse : net.parseErr URL = none)
    (hrt : net.roundTrip ⟨timeoutOf totalSize (initialSizeOf file.Stat totalSize)⟩
      (requestOf URL (initialSizeOf file.Stat totalSize)) = .ok resp)
    (hst : ¬ okStatus resp.StatusCode) :
    DownloadPackage net URL (some file) totalSize handler h0 =
      some ⟨some (.other ("Cannot fetch " ++ URL ++ " Source responded with code "
          ++ fmtD resp.StatusCode)),
        some file, h0, callsOf URL totalSize (initialSizeOf file.Stat totalSize),
        some ⟨resp.Body, [], 1⟩⟩ := by
  unfold requestOf at hrt
  have hst2 : resp.StatusCode ≠ 200 ∧ resp.StatusCode ≠ 206 ∧ resp.StatusCode ≠ 416 := by
    unfold okStatus at hst
    omega
  simp only [DownloadPackage, Net.NewRequest, hparse, hrt, callsOf, requestOf, hst2,
    ne_eq, not_false_eq_true, and_self, if_true, Body.Close]

theorem DownloadPackage_copy (resp : Response) (hparse : net.parseErr URL = none)
    (hrt : net.roundTrip ⟨timeoutOf totalSize (initialSizeOf file.Stat totalSize)⟩
      (requestOf URL (initialSizeOf file.Stat totalSize)) = .ok resp)
    (hst : okStatus resp.StatusCode) :
    ∃ r : CopyResult Body,
      ioCopy (Body.readBound ⟨resp.Body, [], 0⟩) Body.Read file ⟨resp.Body, [], 0⟩ = some r ∧
      DownloadPackage net URL (some file) totalSize handler h0 =
        some ⟨r.err.map (copyError URL), some r.dst,
          progressAfter totalSize (initialSizeOf file.Stat totalSize) handler h0
            (copyCounts Body.Read (Body.readBound ⟨resp.Body, [], 0⟩)
              (List.replicate copyBufSize 0) 0 file ⟨resp.Body, [], 0⟩),
          callsOf URL totalSize (initialSizeOf file.Stat totalSize), some r.src.Close⟩ := by
  obtain ⟨r, hr⟩ := copyLoop_body_isSome (Body.readBound ⟨resp.Body, [], 0⟩)
    (List.replicate copyBufSize 0) 0 file ⟨resp.Body, [], 0⟩ (by rw [List.length_replicate]; decide)
    (le_refl _) rfl
  refine ⟨r, hr, ?_⟩
  unfold requestOf at hrt
  have hst2 : ¬ (resp.StatusCode ≠ 200 ∧ resp.StatusCode ≠ 206 ∧ resp.StatusCode ≠ 416) := by
    unfold okStatus at hst
    omega
  cases handler with
  | none =>
    simp only [DownloadPackage, Net.NewRequest, hparse, hrt, callsOf, requestOf, hst2,
      if_false, ioCopy, hr, Option.map_some', progressAfter]
    rfl
  | some h =>
    simp only [DownloadPackage, Net.NewRequest, hparse, hrt, callsOf, requestOf, hst2,
      if_false, ioCopy, copyLoop_proxy, hr, Option.map_some', progressAfter]
    rfl

end paths

/-- Every call with a destination returns, along one of four paths: the request cannot be
built, the transport fails, the status is refused, or the body is copied. -/
theorem DownloadPackage_cases {η : Type} (net : Net) (URL : String) (file : File)
    (totalSize : Int) (handler : Option (DownloadPackageProgressChangedHandler η)) (h0 : η) :
    (∃ e, net.parseErr URL = some e ∧
      DownloadPackage net URL (some file) totalSize handler h0 =
        some ⟨some (.other ("Cannot create HTTP to URL " ++ URL ++ " request: " ++ e.Error)),
          some file, h0, [.NewRequest "GET" URL], none⟩) ∨
    (net.parseErr URL = none ∧
      ((∃ e, net.roundTrip ⟨timeoutOf totalSize (initialSizeOf file.Stat totalSize)⟩
            (requestOf URL (initialSizeOf file.Stat totalSize)) = .error e ∧
          DownloadPackage net URL (some file) totalSize handler h0 =
            some ⟨some (.other ("Cannot fetch " ++ URL ++ " Response creation error: "
                ++ e.Error)),
              some file, h0, callsOf URL totalSize (initialSizeOf file.Stat totalSize), none⟩) ∨
       (∃ resp, net.roundTrip ⟨timeoutOf totalSize (initialSizeOf file.Stat totalSize)⟩
            (requestOf URL (initialSizeOf file.Stat totalSize)) = .ok resp ∧
          ((¬ okStatus resp.StatusCode ∧
            DownloadPackage net URL (some file) totalSize handler h0 =
              some ⟨some (.other ("Cannot fetch " ++ URL ++ " Source responded with code "
                  ++ fmtD resp.StatusCode)),
                some file, h0, callsOf URL totalSize (initialSizeOf file.Stat totalSize),
                some ⟨resp.Body, [], 1⟩⟩) ∨
           (okStatus resp.StatusCode ∧ ∃ r : CopyResult Body,
            ioCopy (Body.readBound ⟨resp.Body, [], 0⟩) Body.Read file ⟨resp.Body, [], 0⟩
              = some r ∧
            DownloadPackage net URL (some file) totalSize handler h0 =
              some ⟨r.err.map (copyError URL), some r.dst,
                progressAfter totalSize (initialSizeOf file.Stat totalSize) handler h0
                  (copyCounts Body.Read (Body.readBound ⟨resp.Body, [], 0⟩)
                    (List.replicate copyBufSize 0) 0 file ⟨resp.Body, [], 0⟩),
                callsOf URL totalSize (initialSizeOf file.Stat totalSize),
                some r.src.Close⟩))))) := by
  cases hparse : net.parseErr URL with
  | some e => exact Or.inl ⟨e, rfl, DownloadPackage_parseErr net URL file totalSize handler h0 e hparse⟩
  | none =>
    refine Or.inr ⟨rfl, ?_⟩
    cases hrt : net.roundTrip ⟨timeoutOf totalSize (initialSizeOf file.Stat totalSize)⟩
        (requestOf URL (initialSizeOf file.Stat totalSize)) with
    | error e =>
      exact Or.inl ⟨e, rfl, DownloadPackage_doErr net URL file totalSize handler h0 e hparse hrt⟩
    | ok resp =>
      refine Or.inr ⟨resp, rfl, ?_⟩
      by_cases hst : okStatus resp.StatusCode
      · exact Or.inr ⟨hst, DownloadPackage_copy net URL file totalSize handler h0 resp hparse hrt hst⟩
      · exact Or.inl ⟨hst, DownloadPackage_badStatus net URL file totalSize handler h0 resp hparse hrt hst⟩

/-- Once the request could be built, exactly two calls reach `net/http`. -/
theorem DownloadPackage_http {η : Type} (net : Net) (URL : String) (file : File)
    (totalSize : Int) (handler : Option (DownloadPackageProgressChangedHandler η)) (h0 : η)
    (hparse : net.parseErr URL = none) :
    ∃ out, DownloadPackage net URL (some file) totalSize handler h0 = some out ∧
      out.http = callsOf URL totalSize (initialSizeOf file.Stat totalSize) := by
  rcases DownloadPackage_cases net URL file totalSize handler h0 with
    ⟨e, he, -⟩ | ⟨-, ⟨e, -, h⟩ | ⟨resp, -, ⟨-, h⟩ | ⟨-, r, -, h⟩⟩⟩
  · rw [hparse] at he; cases he
  · exact ⟨_, h, rfl⟩
  · exact ⟨_, h, rfl⟩
  · exact ⟨_, h, rfl⟩

theorem initialSizeOf_stat (file : File) (totalSize : Int) :
    0 ≤ initialSizeOf file.Stat totalSize ∧
      (initialSizeOf file.Stat totalSize < totalSize ∨ initialSizeOf file.Stat totalSize = 0) := by
  unfold initialSizeOf File.Stat
  cases file.statErr with
  | some e => simp
  | none =>
    simp only
    split <;> omega

/-! ### Arithmetic of the timeout -/

theorem tdiv_57344_bounds (x : Int) :
    (0 ≤ x → Int.tdiv x 57344 = x / 57344) ∧
    (x < 0 → Int.tdiv x 57344 = -((-x) / 57344)) := by
  constructor
  · intro h
    exact Int.tdiv_eq_ediv h (by decide)
  · intro h
    have h1 : Int.tdiv (-(-x)) 57344 = -Int.tdiv (-x) 57344 := Int.neg_tdiv _ _
    rw [neg_neg] at h1
    rw [h1, Int.tdiv_eq_ediv (by omega) (by decide)]

/-- A multiple of `10^9` small enough wraps to zero only if it is zero. -/
theorem wrapInt64_mul_second_eq_zero (q : Int) (h1 : -36028797018963968 < q)
    (h2 : q < 36028797018963968) : wrapInt64 (q * 1000000000) = 0 ↔ q = 0 := by
  constructor
  · intro h
    have hmod : (q * 1000000000) % 18446744073709551616 = 0 := by
      unfold wrapInt64 at h
      generalize q * 1000000000 = y at h ⊢
      omega
    have h3 : (18446744073709551616 : Int) ∣ q * 1000000000 := Int.dvd_of_emod_eq_zero hmod
    have h4 : (36028797018963968 : Int) ∣ q * 1953125 := by
      obtain ⟨k, hk⟩ := h3
      refine ⟨k, ?_⟩
      have h5 : (q * 1953125) * 512 = (36028797018963968 * k) * 512 := by
        rw [mul_assoc, mul_assoc, mul_comm k 512, ← mul_assoc 36028797018963968]
        norm_num
        exact hk
      exact mul_right_cancel₀ (by norm_num) h5
    have h6 : (36028797018963968 : Int) ∣ q :=
      Int.dvd_of_dvd_mul_left_of_gcd_one h4 (by norm_num)
    apply Int.eq_zero_of_abs_lt_dvd h6
    rw [abs_lt]
    exact ⟨h1, h2⟩
  · intro h
    subst h
    rfl

theorem timeoutOf_eq_zero_iff (t i : Int) (ht : isInt64 t) (hi : 0 ≤ i) (hit : i < t ∨ i = 0) :
    timeoutOf t i = 0 ↔ -57344 < t - i ∧ t - i < 57344 := by
  have hx : isInt64 (t - i) := by
    unfold isInt64 at ht ⊢
    omega
  unfold timeoutOf
  rw [wrapInt64_of_isInt64 hx]
  unfold isInt64 at hx
  generalize t - i = x at hx ⊢
  obtain ⟨hpos, hneg⟩ := tdiv_57344_bounds x
  unfold Second
  rw [wrapInt64_mul_second_eq_zero _ (by omega) (by omega)]
  omega

theorem timeoutOf_exact (t i : Int) (ht : isInt64 t) (hi : 0 ≤ i) (hit : i < t ∨ i = 0) :
    timeoutOf t i = wrapInt64 (Int.tdiv (t - i) 57344 * 1000000000) ∧
    (-528905046089728 < t - i → t - i < 528905046089728 →
      timeoutOf t i = Int.tdiv (t - i) 57344 * 1000000000) := by
  have hx : isInt64 (t - i) := by
    unfold isInt64 at ht ⊢
    omega
  unfold timeoutOf
  rw [wrapInt64_of_isInt64 hx]
  refine ⟨rfl, ?_⟩
  intro h1 h2
  generalize t - i = x at h1 h2 ⊢
  obtain ⟨hpos, hneg⟩ := tdiv_57344_bounds x
  unfold Second
  apply wrapInt64_of_isInt64
  unfold isInt64
  omega

theorem zeros_stat (n : Nat) : (zeros n).Stat = .ok (n : Int) := by
  simp [zeros, File.Stat]

theorem copyError_ne_status (URL : String) (e : GoError) (URL2 code : String) :
    copyError URL e ≠ .other ("Cannot fetch " ++ URL2 ++ " Source responded with code " ++ code) := by
  intro h
  unfold copyError at h
  injection h with h
  have h2 := congrArg String.data h
  simp [String.data_append] at h2

/-! ### Running totals -/

theorem progressClosure_foldl {η : Type} (totalSize : Int)
    (h : DownloadPackageProgressChangedHandler η) :
    ∀ (ns : List Int) (c d : Int) (e : η),
      (∀ x, wrapInt64 (c + x) = wrapInt64 (d + x)) →
      (ns.foldl (fun e n => progressClosure totalSize h n e) (c, e)).2 =
        ((runningTotals d ns).map wrapInt64).foldl (fun e x => h totalSize x e) e := by
  intro ns
  induction ns with
  | nil => intros; rfl
  | cons n ns ih =>
    intro c d e hcd
    simp only [List.foldl_cons, runningTotals, List.map_cons]
    have hstep : progressClosure totalSize h n (c, e) =
        (wrapInt64 (c + n), h totalSize (wrapInt64 (c + n)) e) := rfl
    rw [hstep, ih (wrapInt64 (c + n)) (d + n) _ ?_, hcd n]
    intro x
    rw [wrapInt64_add_left, add_assoc, add_assoc]
    exact hcd (n + x)

theorem runningTotals_bounds :
    ∀ (ns : List Int) (d : Int), (∀ n ∈ ns, 0 ≤ n) →
      ∀ x ∈ runningTotals d ns, d ≤ x ∧ x ≤ d + ns.sum := by
  intro ns
  induction ns with
  | nil => intro d _ x hx; simp [runningTotals] at hx
  | cons n ns ih =>
    intro d hns x hx
    have hn : 0 ≤ n := hns n (List.mem_cons_self _ _)
    have hns2 : ∀ m ∈ ns, 0 ≤ m := fun m hm => hns m (List.mem_cons_of_mem _ hm)
    have hsum : 0 ≤ ns.sum := List.sum_nonneg hns2
    simp only [runningTotals, List.mem_cons] at hx
    rw [List.sum_cons]
    rcases hx with hx | hx
    · subst hx; omega
    · have := ih (d + n) hns2 x hx
      omega

theorem runningTotals_pairwise :
    ∀ (ns : List Int) (d : Int), (∀ n ∈ ns, 0 ≤ n) →
      (runningTotals d ns).Pairwise (fun a b => a ≤ b) := by
  intro ns
  induction ns with
  | nil => intro d _; exact List.Pairwise.nil
  | cons n ns ih =>
    intro d hns
    have hns2 : ∀ m ∈ ns, 0 ≤ m := fun m hm => hns m (List.mem_cons_of_mem _ hm)
    simp only [runningTotals]
    refine List.Pairwise.cons ?_ (ih (d + n) hns2)
    intro x hx
    exact (runningTotals_bounds ns (d + n) hns2 x hx).1

theorem runningTotals_getLast :
    ∀ (ns : List Int) (d : Int), ns ≠ [] → (runningTotals d ns).getLast? = some (d + ns.sum) := by
  intro ns
  induction ns with
  | nil => intro d h; exact absurd rfl h
  | cons n ns ih =>
    intro d _
    cases ns with
    | nil => simp [runningTotals]
    | cons m ms =>
      have := ih (d + n) (by simp)
      simp only [runningTotals, List.getLast?_cons_cons, List.sum_cons] at this ⊢
      rw [this]
      congr 1
      ring

theorem runningTotals_map_wrapInt64 (ns : List Int) (d : Int) (hns : ∀ n ∈ ns, 0 ≤ n)
    (hd : 0 ≤ d) (hsum : d + ns.sum < 9223372036854775808) :
    (runningTotals d ns).map wrapInt64 = runningTotals d ns := by
  conv_rhs => rw [← List.map_id (runningTotals d ns)]
  apply List.map_congr_left
  intro x hx
  have := runningTotals_bounds ns d hns x hx
  apply wrapInt64_of_isInt64
  unfold isInt64
  omega

theorem copyCounts_ne_nil {σ : Type} (rd : ReadFn σ) (fuel : Nat) (buf : List Byte) (w : Int)
    (dst : File) (s : σ) : copyCounts rd (fuel + 1) buf w dst s ≠ [] := by
  simp only [copyCounts]
  rcases rd buf s with ⟨res, s1⟩
  simp only
  rcases copyWrite dst res w with ⟨w1, ew, dst1⟩
  cases ew with
  | some e => simp
  | none =>
    simp only
    cases res.err <;> simp

/-- What the handler has seen and what has been written when the body was copied. -/
theorem DownloadPackage_progress {η : Type} (net : Net) (URL : String) (file : File)
    (totalSize : Int) (h : DownloadPackageProgressChangedHandler η) (h0 : η)
    (resp : Response) (hparse : net.parseErr URL = none)
    (hrt : net.roundTrip ⟨timeoutOf totalSize (initialSizeOf file.Stat totalSize)⟩
      (requestOf URL (initialSizeOf file.Stat totalSize)) = .ok resp)
    (hst : okStatus resp.StatusCode) :
    ∃ out body dst, DownloadPackage net URL (some file) totalSize (some h) h0 = some out ∧
      out.body = some body ∧ out.file = some dst ∧
      body.served ≠ [] ∧ (∀ n ∈ body.served, 0 ≤ n) ∧
      out.progress =
        ((runningTotals (initialSizeOf file.Stat totalSize) body.served).map wrapInt64).foldl
          (fun e d => h totalSize d e) h0 ∧
      (out.err = none → body.served.sum = (dst.offset : Int) - (file.offset : Int)) := by
  obtain ⟨r, hr, hdp⟩ :=
    DownloadPackage_copy net URL file totalSize (some h) h0 resp hparse hrt hst
  obtain ⟨-, hserved, hnn, -, wr, -, hoff, -, hsucc⟩ := copyLoop_body _ _ _ _ _ r rfl hr
  simp only [List.nil_append] at hserved
  refine ⟨_, r.src.Close, r.dst, hdp, rfl, rfl, ?_, ?_, ?_, ?_⟩
  · simp only [Body.Close, hserved]
    exact copyCounts_ne_nil _ _ _ _ _ _
  · simp only [Body.Close, hserved]
    exact hnn
  · simp only [Body.Close, hserved, progressAfter]
    exact progressClosure_foldl totalSize h _ _ _ h0 (fun _ => rfl)
  · intro hc
    simp only [Body.Close, hserved]
    cases hre : r.err with
    | none =>
      rw [(hsucc hre).2, hoff]
      push_cast
      ring
    | some e => simp [hre] at hc

/-! ### Rounds of the copy loop on simple bodies -/

/-- A round in which the body delivers non-empty data that fits the buffer, without error,
and the destination accepts it. -/
theorem copyRound_data (fuel : Nat) (buf : List Byte) (w : Int) (dst : File)
    (data : List Byte) (rest : List ReadStep) (served : List Int)
    (hne : 0 < data.length) (hlen : data.length ≤ buf.length) (hroom : dst.room = none) :
    copyLoop Body.Read (fuel + 1) buf w dst ⟨⟨data, none⟩ :: rest, served, 0⟩ =
      copyLoop Body.Read fuel (data ++ buf.drop data.length) (wrapInt64 (w + data.length))
        (dst.put data) ⟨rest, served ++ [(data.length : Int)], 0⟩ ∧
    copyCounts Body.Read (fuel + 1) buf w dst ⟨⟨data, none⟩ :: rest, served, 0⟩ =
      (data.length : Int) :: copyCounts Body.Read fuel (data ++ buf.drop data.length)
        (wrapInt64 (w + data.length)) (dst.put data) ⟨rest, served ++ [(data.length : Int)], 0⟩ := by
  have hpos : (0 : Int) < (data.length : Int) := by exact_mod_cast hne
  have hread : Body.Read buf ⟨⟨data, none⟩ :: rest, served, 0⟩ =
      (⟨(data.length : Int), none, data ++ buf.drop data.length⟩,
        ⟨rest, served ++ [(data.length : Int)], 0⟩) := by
    simp only [Body.Read, lt_irrefl, if_false, hlen, if_true]
  have hwrite : copyWrite dst ⟨(data.length : Int), none, data ++ buf.drop data.length⟩ w =
      (wrapInt64 (w + data.length), none, dst.put data) := by
    simp only [copyWrite, hpos, if_true, Int.toNat_ofNat, List.take_left', File.Write, hroom,
      ne_eq, not_true_eq_false, if_false]
  constructor
  · simp only [copyLoop, hread, hwrite]
  · simp only [copyCounts, hread, hwrite]

/-- The round in which the body is found at EOF. -/
theorem copyRound_eof (fuel : Nat) (buf : List Byte) (w : Int) (dst : File)
    (served : List Int) :
    copyLoop Body.Read (fuel + 1) buf w dst ⟨[], served, 0⟩ =
      some ⟨w, none, dst, ⟨[], served ++ [0], 0⟩⟩ ∧
    copyCounts Body.Read (fuel + 1) buf w dst ⟨[], served, 0⟩ = [0] := by
  constructor <;> rfl

theorem answering_parseErr (code : Int) (body : List ReadStep) (URL : String) :
    (answering code body).parseErr URL = none := rfl

theorem answering_roundTrip (code : Int) (body : List ReadStep) (c : Client) (r : Request) :
    (answering code body).roundTrip c r = .ok ⟨code, body⟩ := rfl

/-- Scenario 6 of the specification: 1000 bytes already there, `totalSize = 5000`, a 206
answer with the 4000 missing bytes in one delivery. -/
theorem DownloadPackage_resume_scenario :
    DownloadPackage (answering 206 [⟨List.replicate 4000 1, none⟩]) "http://host/pkg"
        (some (zeros 1000)) 5000 (some recordCalls) [] =
      some ⟨none, some ((zeros 1000).put (List.replicate 4000 1)),
        [(5000, 5000), (5000, 5000)],
        [.NewRequest "GET" "http://host/pkg",
          .Do ⟨0⟩ ⟨"GET", "http://host/pkg", [("Range", "bytes=1000-")]⟩],
        some ⟨[], [4000, 0], 1⟩⟩ := by
  obtain ⟨r, hr, hdp⟩ := DownloadPackage_copy (answering 206 [⟨List.replicate 4000 1, none⟩])
    "http://host/pkg" (zeros 1000) 5000 (some recordCalls) []
    ⟨206, [⟨List.replicate 4000 1, none⟩]⟩ (answering_parseErr _ _ _)
    (answering_roundTrip _ _ _ _) (Or.inr (Or.inl rfl))
  dsimp only at hr hdp
  have hb : Body.readBound ⟨[⟨List.replicate 4000 1, none⟩], [], 0⟩ = 4001 + 1 := by
    simp only [Body.readBound, List.map_cons, List.map_nil, List.sum_cons, List.sum_nil,
      List.length_replicate]
    decide
  have hd : 0 < (List.replicate 4000 (1 : Byte)).length := by
    rw [List.length_replicate]; decide
  have hl : (List.replicate 4000 (1 : Byte)).length ≤ (List.replicate copyBufSize (0 : Byte)).length := by
    rw [List.length_replicate, List.length_replicate]; decide
  have hstep := copyRound_data 4001 (List.replicate copyBufSize 0) 0 (zeros 1000)
    (List.replicate 4000 1) [] [] hd hl rfl
  rw [ioCopy, hb, hstep.1, (copyRound_eof _ _ _ _ _).1] at hr
  rw [hb, hstep.2, (copyRound_eof _ _ _ _ _).2] at hdp
  have hr2 := Option.some.inj hr
  subst hr2
  rw [hdp]
  have hi : initialSizeOf (zeros 1000).Stat 5000 = 1000 := by
    rw [zeros_stat]; decide
  rw [hi, List.length_replicate]
  rfl

/-! ### What the destination holds, and more rounds -/

theorem copyWrite_exact (dst : File) (res : ReadResult) (w : Int) (d : List Byte)
    (hd : res.p.take res.n.toNat = d) (hn : res.n = (d.length : Int))
    (hpos : dst.offset = dst.content.length) :
    ((copyWrite dst res w).2.1 = none →
      (copyWrite dst res w).2.2.content = dst.content ++ d ∧
      ∀ D : List Byte, d ++ accepted (copyWrite dst res w).2.2.room D = accepted dst.room (d ++ D)) ∧
    (∀ e, (copyWrite dst res w).2.1 = some e →
      (copyWrite dst res w).2.2.content = dst.content ++ accepted dst.room d) := by
  unfold copyWrite
  by_cases hp : 0 < res.n
  · rw [if_pos hp, hd]
    unfold File.Write
    rcases hr : dst.room with _ | ⟨c, e⟩
    · simp only [ne_eq, hn, not_true_eq_false, if_false, accepted]
      refine ⟨fun _ => ⟨by simp [File.put, hpos], fun D => by simp [File.put, hr]⟩,
        fun e he => by simp at he⟩
    · by_cases hc : d.length ≤ c
      · simp only [hc, if_true, ne_eq, hn, not_true_eq_false, if_false, accepted]
        refine ⟨fun _ => ⟨by simp [File.put, hpos], fun D => ?_⟩, fun e he => by simp at he⟩
        conv_rhs => rw [show c = d.length + (c - d.length) by omega]
        rw [List.take_append]
      · simp only [hc, if_false, accepted]
        refine ⟨fun h => by simp at h, fun e1 _ => by simp [File.put, hpos]⟩
  · rw [if_neg hp]
    have hd0 : d.length = 0 := by omega
    have hdnil : d = [] := List.length_eq_zero.mp hd0
    subst hdnil
    refine ⟨fun _ => ⟨by simp, fun D => by simp⟩, fun e he => by simp at he⟩


/-- The destination after the copy loop holds, after what it held, the bytes delivered by
the reads that were made, as far as the device took them. -/
theorem copyLoop_written :
    ∀ (fuel : Nat) (buf : List Byte) (w : Int) (dst : File) (b : Body) (r : CopyResult Body),
      b.closed = 0 → dst.offset = dst.content.length →
      copyLoop Body.Read fuel buf w dst b = some r →
      r.dst.content = dst.content ++ accepted dst.room
        ((streamBytes b.pending).take (copyCounts Body.Read fuel buf w dst b).sum.toNat) := by
  intro fuel
  induction fuel with
  | zero =>
    intro buf w dst b r _ _ h
    simp [copyLoop] at h
  | succ fuel ih =>
    intro buf w dst b r hopen hpos h
    obtain ⟨d, hd, hn, -, hcl, -, hnone, hsome⟩ := Body.Read_spec buf b hopen
    simp only [copyLoop, copyCounts] at h ⊢
    rcases hr : Body.Read buf b with ⟨res, b1⟩
    rw [hr] at hd hn hcl hnone hsome h
    simp only at hd hn hcl hnone hsome h ⊢
    obtain ⟨k, -, hknone, -, -, hcont⟩ := copyWrite_spec dst res w d hd hn
    obtain ⟨hwn, hws⟩ := copyWrite_exact dst res w d hd hn hpos
    rcases hw : copyWrite dst res w with ⟨w1, ew, dst1⟩
    rw [hw] at hknone hcont hwn hws h
    simp only at hknone hcont hwn hws h ⊢
    have hpre : d <+: streamBytes b.pending := by
      cases herr : res.err with
      | none => rw [(hnone herr).1]; exact List.prefix_append _ _
      | some e => rw [hsome e herr]
    have htake : (streamBytes b.pending).take d.length = d :=
      (List.prefix_iff_eq_take.mp hpre).symm
    have hone : ([res.n] : List Int).sum.toNat = d.length := by
      simp [hn]
    cases ew with
    | some e1 =>
      simp only [Option.some.injEq] at h
      subst h
      simp only
      rw [hone, htake]
      exact hws e1 rfl
    | none =>
      obtain ⟨hc1, hacc⟩ := hwn rfl
      simp only at h ⊢
      cases herr : res.err with
      | some er =>
        rw [herr] at h
        simp only [Option.some.injEq] at h
        subst h
        simp only
        rw [hone, htake, hc1]
        have := hacc []
        simp only [List.append_nil] at this
        rw [← this]
        cases dst1.room with
        | none => simp [accepted]
        | some ce => simp [accepted]
      | none =>
        rw [herr] at h
        simp only at h
        have hpos1 := (hcont hpos).2
        have ih1 := ih res.p w1 dst1 b1 r hcl hpos1 h
        obtain ⟨-, -, hnn, -⟩ := copyLoop_body fuel res.p w1 dst1 b1 r hcl h
        have hs : 0 ≤ (copyCounts Body.Read fuel res.p w1 dst1 b1).sum := List.sum_nonneg hnn
        rw [ih1, hc1, List.append_assoc, hacc, (hnone herr).1, List.sum_cons, hn]
        congr 2
        have : ((d.length : Int) + (copyCounts Body.Read fuel res.p w1 dst1 b1).sum).toNat
            = d.length + (copyCounts Body.Read fuel res.p w1 dst1 b1).sum.toNat := by
          omega
        rw [this, List.take_append]


theorem zerosUpTo_stat (n c : Nat) (e : GoError) : (zerosUpTo n c e).Stat = .ok (n : Int) := by
  simp [zerosUpTo, File.Stat]

/-- What the destination holds once the response has been dealt with, whatever the status
and the outcome of the copy. -/
theorem DownloadPackage_written {η : Type} (net : Net) (URL : String) (file : File)
    (totalSize : Int) (handler : Option (DownloadPackageProgressChangedHandler η)) (h0 : η)
    (resp : Response) (hparse : net.parseErr URL = none)
    (hrt : net.roundTrip ⟨timeoutOf totalSize (initialSizeOf file.Stat totalSize)⟩
      (requestOf URL (initialSizeOf file.Stat totalSize)) = .ok resp)
    (hpos : file.offset = file.content.length) :
    ∃ out dst body, DownloadPackage net URL (some file) totalSize handler h0 = some out ∧
      out.file = some dst ∧ out.body = some body ∧
      dst.content = file.content ++ accepted file.room
        ((streamBytes resp.Body).take body.served.sum.toNat) := by
  by_cases hst : okStatus resp.StatusCode
  · obtain ⟨r, hr, hdp⟩ :=
      DownloadPackage_copy net URL file totalSize handler h0 resp hparse hrt hst
    obtain ⟨-, hserved, -⟩ := copyLoop_body _ _ _ _ _ r rfl hr
    have hw := copyLoop_written _ _ _ _ _ r rfl hpos hr
    simp only [List.nil_append] at hserved
    refine ⟨_, r.dst, r.src.Close, hdp, rfl, rfl, ?_⟩
    simp only [Body.Close, hserved]
    exact hw
  · have hdp := DownloadPackage_badStatus net URL file totalSize handler h0 resp hparse hrt hst
    refine ⟨_, file, _, hdp, rfl, rfl, ?_⟩
    cases file.room <;> simp [accepted]

/-- A round in which the body delivers non-empty data that fits the buffer, without error,
and the device has room for it. -/
theorem copyRound_data_room (fuel : Nat) (buf : List Byte) (w : Int) (dst : File)
    (data : List Byte) (rest : List ReadStep) (served : List Int) (c : Nat) (e : GoError)
    (hne : 0 < data.length) (hlen : data.length ≤ buf.length)
    (hroom : dst.room = some (c, e)) (hc : data.length ≤ c) :
    copyLoop Body.Read (fuel + 1) buf w dst ⟨⟨data, none⟩ :: rest, served, 0⟩ =
      copyLoop Body.Read fuel (data ++ buf.drop data.length) (wrapInt64 (w + data.length))
        { dst.put data with room := some (c - data.length, e) }
        ⟨rest, served ++ [(data.length : Int)], 0⟩ ∧
    copyCounts Body.Read (fuel + 1) buf w dst ⟨⟨data, none⟩ :: rest, served, 0⟩ =
      (data.length : Int) :: copyCounts Body.Read fuel (data ++ buf.drop data.length)
        (wrapInt64 (w + data.length)) { dst.put data with room := some (c - data.length, e) }
        ⟨rest, served ++ [(data.length : Int)], 0⟩ := by
  have hpos : (0 : Int) < (data.length : Int) := by exact_mod_cast hne
  have hread : Body.Read buf ⟨⟨data, none⟩ :: rest, served, 0⟩ =
      (⟨(data.length : Int), none, data ++ buf.drop data.length⟩,
        ⟨rest, served ++ [(data.length : Int)], 0⟩) := by
    simp only [Body.Read, lt_irrefl, if_false, hlen, if_true]
  have hwrite : copyWrite dst ⟨(data.length : Int), none, data ++ buf.drop data.length⟩ w =
      (wrapInt64 (w + data.length), none,
        { dst.put data with room := some (c - data.length, e) }) := by
    simp only [copyWrite, hpos, if_true, Int.toNat_ofNat, List.take_left', File.Write, hroom,
      hc, ne_eq, not_true_eq_false, if_false]
  constructor
  · simp only [copyLoop, hread, hwrite]
  · simp only [copyCounts, hread, hwrite]

/-- A round in which the body delivers data that fits the buffer and the device has no
room left at all: nothing is written and the loop stops on the error of the write. -/
theorem copyRound_refused (fuel : Nat) (buf : List Byte) (w : Int) (dst : File)
    (data : List Byte) (rest : List ReadStep) (served : List Int) (e : GoError)
    (hne : 0 < data.length) (hlen : data.length ≤ buf.length)
    (hroom : dst.room = some (0, e)) :
    copyLoop Body.Read (fuel + 1) buf w dst ⟨⟨data, none⟩ :: rest, served, 0⟩ =
      some ⟨w, some e, { dst.put [] with room := some (0, e) },
        ⟨rest, served ++ [(data.length : Int)], 0⟩⟩ ∧
    copyCounts Body.Read (fuel + 1) buf w dst ⟨⟨data, none⟩ :: rest, served, 0⟩ =
      [(data.length : Int)] := by
  have hpos : (0 : Int) < (data.length : Int) := by exact_mod_cast hne
  have hread : Body.Read buf ⟨⟨data, none⟩ :: rest, served, 0⟩ =
      (⟨(data.length : Int), none, data ++ buf.drop data.length⟩,
        ⟨rest, served ++ [(data.length : Int)], 0⟩) := by
    simp only [Body.Read, lt_irrefl, if_false, hlen, if_true]
  have hc : ¬ data.length ≤ 0 := by omega
  have hwrite : copyWrite dst ⟨(data.length : Int), none, data ++ buf.drop data.length⟩ w =
      (w, some e, { dst.put [] with room := some (0, e) }) := by
    simp only [copyWrite, hpos, if_true, Int.toNat_ofNat, List.take_left', File.Write, hroom,
      hc, if_false, List.take_zero, Nat.cast_zero, lt_irrefl]
  constructor
  · simp only [copyLoop, hread, hwrite]
  · simp only [copyCounts, hread, hwrite]

theorem File.put_end (f : File) (b : List Byte) (h : f.offset = f.content.length) :
    (f.put b).content = f.content ++ b ∧ (f.put b).offset = (f.put b).content.length := by
  simp [File.put, h]

/-- One delivery that fits the buffer, then EOF, on a destination without write limit. -/
theorem DownloadPackage_one_delivery {η : Type} (code : Int) (data : List Byte)
    (URL : String) (file : File) (totalSize : Int)
    (handler : DownloadPackageProgressChangedHandler η) (h0 : η)
    (hcode : okStatus code) (hne : 0 < data.length) (hlen : data.length ≤ copyBufSize)
    (hroom : file.room = none) :
    DownloadPackage (answering code [⟨data, none⟩]) URL (some file) totalSize
        (some handler) h0 =
      some ⟨none, some (file.put data),
        progressAfter totalSize (initialSizeOf file.Stat totalSize) (some handler) h0
          [(data.length : Int), 0],
        callsOf URL totalSize (initialSizeOf file.Stat totalSize),
        some ⟨[], [(data.length : Int), 0], 1⟩⟩ := by
  obtain ⟨r, hr, hdp⟩ := DownloadPackage_copy (answering code [⟨data, none⟩])
    URL file totalSize (some handler) h0 ⟨code, [⟨data, none⟩]⟩ (answering_parseErr _ _ _)
    (answering_roundTrip _ _ _ _) hcode
  dsimp only at hr hdp
  have hb : Body.readBound ⟨[⟨data, none⟩], [], 0⟩ = (data.length + 1) + 1 := by
    simp only [Body.readBound, List.map_cons, List.map_nil, List.sum_cons, List.sum_nil,
      Nat.add_zero]
  have hl : data.length ≤ (List.replicate copyBufSize (0 : Byte)).length := by
    rw [List.length_replicate]; exact hlen
  have hstep := copyRound_data (data.length + 1) (List.replicate copyBufSize 0) 0 file
    data [] [] hne hl hroom
  rw [ioCopy, hb, hstep.1, (copyRound_eof _ _ _ _ _).1] at hr
  rw [hb, hstep.2, (copyRound_eof _ _ _ _ _).2] at hdp
  have hr2 := Option.some.inj hr
  subst hr2
  rw [hdp]
  rfl

/-- Two deliveries that fit the buffer, on a destination positioned at its end whose
device takes exactly the first one: the second write is refused and the copy fails. -/
theorem DownloadPackage_second_refused {η : Type} (code : Int) (d1 d2 : List Byte)
    (URL : String) (file : File) (totalSize : Int) (e : GoError)
    (handler : DownloadPackageProgressChangedHandler η) (h0 : η)
    (hcode : okStatus code) (hne1 : 0 < d1.length) (hlen1 : d1.length ≤ copyBufSize)
    (hne2 : 0 < d2.length) (hlen2 : d2.length ≤ copyBufSize)
    (hroom : file.room = some (d1.length, e)) (hpos : file.offset = file.content.length) :
    ∃ dst, dst.content = file.content ++ d1 ∧
      DownloadPackage (answering code [⟨d1, none⟩, ⟨d2, none⟩]) URL (some file) totalSize
          (some handler) h0 =
        some ⟨some (copyError URL e), some dst,
          progressAfter totalSize (initialSizeOf file.Stat totalSize) (some handler) h0
            [(d1.length : Int), (d2.length : Int)],
          callsOf URL totalSize (initialSizeOf file.Stat totalSize),
          some ⟨[], [(d1.length : Int), (d2.length : Int)], 1⟩⟩ := by
  obtain ⟨r, hr, hdp⟩ := DownloadPackage_copy (answering code [⟨d1, none⟩, ⟨d2, none⟩])
    URL file totalSize (some handler) h0 ⟨code, [⟨d1, none⟩, ⟨d2, none⟩]⟩
    (answering_parseErr _ _ _) (answering_roundTrip _ _ _ _) hcode
  dsimp only at hr hdp
  have hb : Body.readBound ⟨[⟨d1, none⟩, ⟨d2, none⟩], [], 0⟩
      = (d1.length + 1 + d2.length + 1) + 1 := by
    simp only [Body.readBound, List.map_cons, List.map_nil, List.sum_cons, List.sum_nil,
      Nat.add_zero]
    rfl
  have hl1 : d1.length ≤ (List.replicate copyBufSize (0 : Byte)).length := by
    rw [List.length_replicate]; exact hlen1
  have hl2 : d2.length ≤ (d1 ++ (List.replicate copyBufSize (0 : Byte)).drop d1.length).length := by
    rw [List.length_append, List.length_drop, List.length_replicate,
      Nat.add_sub_of_le hlen1]
    exact hlen2
  have hstep1 := copyRound_data_room (d1.length + 1 + d2.length + 1)
    (List.replicate copyBufSize 0) 0 file d1 [⟨d2, none⟩] [] d1.length e hne1 hl1 hroom
    (le_refl _)
  have hstep2 := copyRound_refused (d1.length + 1 + d2.length)
    (d1 ++ (List.replicate copyBufSize (0 : Byte)).drop d1.length)
    (wrapInt64 (0 + (d1.length : Int)))
    { file.put d1 with room := some (d1.length - d1.length, e) } d2 []
    ([] ++ [(d1.length : Int)]) e hne2 hl2 (by simp only [Nat.sub_self])
  rw [ioCopy, hb, hstep1.1, hstep2.1] at hr
  rw [hb, hstep1.2, hstep2.2] at hdp
  have hr2 := Option.some.inj hr
  subst hr2
  refine ⟨_, ?_, hdp⟩
  have h1 := File.put_end file d1 hpos
  have h2 := File.put_end { file.put d1 with room := some (d1.length - d1.length, e) } []
    h1.2
  exact h2.1.trans ((List.append_nil _).trans h1.1)

/-! ## The claims -/

/-- C1: when the request can be built, the calls made to `net/http` are `NewRequest` and
one `Do` of a GET request for the URL, with the timeout computed from `initialSize`; if
`Stat` succeeds with a size `s` such that `0 < s < totalSize` then `initialSize = s` and the
request carries the single header `Range: bytes=<s in decimal>-`; if `Stat` fails, or
`s = 0`, or `s >= totalSize`, then `initialSize = 0` and the request carries no header. -/
theorem C1_initial_size_and_range_header {η : Type} (net : Net) (URL : String) (file : File)
    (totalSize : Int) (handler : Option (DownloadPackageProgressChangedHandler η)) (h0 : η)
    (hparse : net.parseErr URL = none) :
    ∃ out request, DownloadPackage net URL (some file) totalSize handler h0 = some out ∧
      out.http = [.NewRequest "GET" URL,
        .Do ⟨timeoutOf totalSize (initialSizeOf file.Stat totalSize)⟩ request] ∧
      request.Method = "GET" ∧ request.URL = URL ∧
      (∀ s, file.Stat = .ok s → 0 < s → s < totalSize →
        initialSizeOf file.Stat totalSize = s ∧
        request.Header = [("Range", "bytes=" ++ fmtD s ++ "-")]) ∧
      ((∃ e, file.Stat = .error e) ∨ file.Stat = .ok 0 ∨
          (∃ s, file.Stat = .ok s ∧ totalSize ≤ s) →
        initialSizeOf file.Stat totalSize = 0 ∧ request.Header = []) := by
  obtain ⟨out, hout, hhttp⟩ := DownloadPackage_http net URL file totalSize handler h0 hparse
  refine ⟨out, requestOf URL (initialSizeOf file.Stat totalSize), hout, hhttp, ?_, ?_, ?_, ?_⟩
  · unfold requestOf; split <;> rfl
  · unfold requestOf; split <;> rfl
  · intro s hs h1 h2
    have hi : initialSizeOf file.Stat totalSize = s := by
      rw [hs]; simp only [initialSizeOf]; rw [if_neg (by omega)]
    refine ⟨hi, ?_⟩
    rw [hi, requestOf, if_pos h1]
    rfl
  · intro h
    have hi : initialSizeOf file.Stat totalSize = 0 := by
      rcases h with ⟨e, he⟩ | he | ⟨s, hs, hle⟩
      · rw [he]; rfl
      · rw [he]; simp only [initialSizeOf]; split <;> rfl
      · rw [hs]; simp only [initialSizeOf]; rw [if_pos (by omega)]
    refine ⟨hi, ?_⟩
    rw [hi, requestOf, if_neg (by decide)]

/-- C1 at a destination of 1000 bytes with `totalSize = 5000`: the request sent carries
`Range: bytes=1000-`. -/
theorem C1_witness :
    (answering 206 []).parseErr "http://host/pkg" = none ∧
    ∃ out request,
      DownloadPackage (answering 206 []) "http://host/pkg" (some (zeros 1000)) 5000
        (none : Option (DownloadPackageProgressChangedHandler Unit)) () = some out ∧
      out.http = [.NewRequest "GET" "http://host/pkg",
        .Do ⟨timeoutOf 5000 (initialSizeOf (zeros 1000).Stat 5000)⟩ request] ∧
      initialSizeOf (zeros 1000).Stat 5000 = 1000 ∧
      request.Header = [("Range", "bytes=1000-")] := by
  refine ⟨rfl, ?_⟩
  obtain ⟨out, request, h1, h2, -, -, h3, -⟩ :=
    C1_initial_size_and_range_header (answering 206 []) "http://host/pkg" (zeros 1000) 5000
      (none : Option (DownloadPackageProgressChangedHandler Unit)) () rfl
  have h4 := h3 1000 (zeros_stat 1000) (by decide) (by decide)
  exact ⟨out, request, h1, h2, h4.1, by rw [h4.2]; decide⟩

/-- C2: when a response with status code `c` is received, the call returns the error
"Cannot fetch <URL> Source responded with code <c in decimal>" if and only if `c` is none
of 200, 206, 416; in that case the destination is what it was, no read was made on the
body (nothing of it is consumed; it is closed) and the handler was not invoked. -/
theorem C2_unexpected_status {η : Type} (net : Net) (URL : String) (file : File)
    (totalSize : Int) (handler : Option (DownloadPackageProgressChangedHandler η)) (h0 : η)
    (resp : Response) (hparse : net.parseErr URL = none)
    (hrt : net.roundTrip ⟨timeoutOf totalSize (initialSizeOf file.Stat totalSize)⟩
      (requestOf URL (initialSizeOf file.Stat totalSize)) = .ok resp) :
    ∃ out, DownloadPackage net URL (some file) totalSize handler h0 = some out ∧
      (out.err = some (.other ("Cannot fetch " ++ URL ++ " Source responded with code "
          ++ fmtD resp.StatusCode)) ↔
        (resp.StatusCode ≠ 200 ∧ resp.StatusCode ≠ 206 ∧ resp.StatusCode ≠ 416)) ∧
      ((resp.StatusCode ≠ 200 ∧ resp.StatusCode ≠ 206 ∧ resp.StatusCode ≠ 416) →
        out.file = some file ∧ out.body = some ⟨resp.Body, [], 1⟩ ∧ out.progress = h0) := by
  by_cases hst : okStatus resp.StatusCode
  · obtain ⟨r, -, hdp⟩ :=
      DownloadPackage_copy net URL file totalSize handler h0 resp hparse hrt hst
    have hno : ¬ (resp.StatusCode ≠ 200 ∧ resp.StatusCode ≠ 206 ∧ resp.StatusCode ≠ 416) := by
      unfold okStatus at hst; omega
    refine ⟨_, hdp, ⟨fun h => ?_, fun h => absurd h hno⟩, fun h => absurd h hno⟩
    exfalso
    simp only at h
    cases hre : r.err with
    | none => rw [hre] at h; simp at h
    | some e =>
      rw [hre] at h
      simp only [Option.map_some', Option.some.injEq] at h
      exact copyError_ne_status _ _ _ _ h
  · have hdp := DownloadPackage_badStatus net URL file totalSize handler h0 resp hparse hrt hst
    have hyes : resp.StatusCode ≠ 200 ∧ resp.StatusCode ≠ 206 ∧ resp.StatusCode ≠ 416 := by
      unfold okStatus at hst; omega
    exact ⟨_, hdp, ⟨fun _ => hyes, fun _ => rfl⟩, fun _ => ⟨rfl, rfl, rfl⟩⟩

/-- C2 at a 404 answer with a three-byte body: the error names the URL and 404, and the
destination and the body are untouched. -/
theorem C2_witness :
    (answering 404 [⟨[1, 2, 3], none⟩]).parseErr "http://host/pkg" = none ∧
    (answering 404 [⟨[1, 2, 3], none⟩]).roundTrip
      ⟨timeoutOf 5000 (initialSizeOf (zeros 1000).Stat 5000)⟩
      (requestOf "http://host/pkg" (initialSizeOf (zeros 1000).Stat 5000))
        = .ok ⟨404, [⟨[1, 2, 3], none⟩]⟩ ∧
    ∃ out, DownloadPackage (answering 404 [⟨[1, 2, 3], none⟩]) "http://host/pkg"
        (some (zeros 1000)) 5000 (some recordCalls) [] = some out ∧
      out.err = some (.other "Cannot fetch http://host/pkg Source responded with code 404") ∧
      out.file = some (zeros 1000) ∧ out.body = some ⟨[⟨[1, 2, 3], none⟩], [], 1⟩ ∧
      out.progress = [] := by
  refine ⟨rfl, rfl, ?_⟩
  obtain ⟨out, h1, h2, h3⟩ :=
    C2_unexpected_status (answering 404 [⟨[1, 2, 3], none⟩]) "http://host/pkg" (zeros 1000)
      5000 (some recordCalls) [] ⟨404, [⟨[1, 2, 3], none⟩]⟩ rfl rfl
  have hc : (404 : Int) ≠ 200 ∧ (404 : Int) ≠ 206 ∧ (404 : Int) ≠ 416 := by decide
  have h4 := h2.mpr hc
  have h5 := h3 hc
  exact ⟨out, h1, by rw [h4]; decide, h5.1, h5.2.1, h5.2.2⟩

/-- C3, as amended: when the body is copied with a handler, the handler is invoked once
per read of the body, the i-th time with `totalSize` and with
`initialSize + n1 + ... + ni` reduced to a signed 64-bit integer, `n1, ..., nk` being the
(non-negative) counts returned by the reads. Whenever
`initialSize + n1 + ... + nk < 2^63` the values reported are the sums themselves, they are
non-decreasing, and if the call returns nil the last one is `initialSize` plus the number
of bytes written to the destination. -/
theorem C3_progress_reports {η : Type} (net : Net) (URL : String) (file : File)
    (totalSize : Int) (handler : DownloadPackageProgressChangedHandler η) (h0 : η)
    (resp : Response) (hparse : net.parseErr URL = none)
    (hrt : net.roundTrip ⟨timeoutOf totalSize (initialSizeOf file.Stat totalSize)⟩
      (requestOf URL (initialSizeOf file.Stat totalSize)) = .ok resp)
    (hst : resp.StatusCode = 200 ∨ resp.StatusCode = 206 ∨ resp.StatusCode = 416) :
    ∃ out body dst,
      DownloadPackage net URL (some file) totalSize (some handler) h0 = some out ∧
      out.body = some body ∧ out.file = some dst ∧
      (∀ n ∈ body.served, 0 ≤ n) ∧
      out.progress =
        ((runningTotals (initialSizeOf file.Stat totalSize) body.served).map wrapInt64).foldl
          (fun e d => handler totalSize d e) h0 ∧
      (initialSizeOf file.Stat totalSize + body.served.sum < 9223372036854775808 →
        (runningTotals (initialSizeOf file.Stat totalSize) body.served).map wrapInt64
          = runningTotals (initialSizeOf file.Stat totalSize) body.served ∧
        (runningTotals (initialSizeOf file.Stat totalSize) body.served).Pairwise
          (fun a b => a ≤ b) ∧
        (out.err = none →
          (runningTotals (initialSizeOf file.Stat totalSize) body.served).getLast?
            = some (initialSizeOf file.Stat totalSize
                + ((dst.offset : Int) - (file.offset : Int))))) := by
  obtain ⟨out, body, dst, h1, h2, h3, hne, hnn, hprog, hlast⟩ :=
    DownloadPackage_progress net URL file totalSize handler h0 resp hparse hrt hst
  refine ⟨out, body, dst, h1, h2, h3, hnn, hprog, ?_⟩
  intro hsum
  refine ⟨runningTotals_map_wrapInt64 _ _ hnn (initialSizeOf_stat file totalSize).1 hsum,
    runningTotals_pairwise _ _ hnn, ?_⟩
  intro hc
  rw [runningTotals_getLast _ _ hne, hlast hc]

/-- C3 on scenario 6 of the specification (1000 bytes there, `totalSize = 5000`, 4000 bytes
delivered on a 206 answer): the handler is called with (5000, 5000), (5000, 5000), once
for the read of the 4000 bytes and once for the read that finds EOF. -/
theorem C3_witness :
    (answering 206 [⟨List.replicate 4000 1, none⟩]).parseErr "http://host/pkg" = none ∧
    (answering 206 [⟨List.replicate 4000 1, none⟩]).roundTrip
      ⟨timeoutOf 5000 (initialSizeOf (zeros 1000).Stat 5000)⟩
      (requestOf "http://host/pkg" (initialSizeOf (zeros 1000).Stat 5000))
        = .ok ⟨206, [⟨List.replicate 4000 1, none⟩]⟩ ∧
    ∃ out body,
      DownloadPackage (answering 206 [⟨List.replicate 4000 1, none⟩]) "http://host/pkg"
        (some (zeros 1000)) 5000 (some recordCalls) [] = some out ∧
      out.body = some body ∧ body.served = [4000, 0] ∧
      out.progress = [(5000, 5000), (5000, 5000)] := by
  refine ⟨answering_parseErr _ _ _, answering_roundTrip _ _ _ _, ?_⟩
  obtain ⟨out, body, dst, h1, h2, -, -, -, -⟩ :=
    C3_progress_reports (answering 206 [⟨List.replicate 4000 1, none⟩]) "http://host/pkg"
      (zeros 1000) 5000 recordCalls [] ⟨206, [⟨List.replicate 4000 1, none⟩]⟩
      (answering_parseErr _ _ _) (answering_roundTrip _ _ _ _) (Or.inr (Or.inl rfl))
  have h4 := h1.symm.trans DownloadPackage_resume_scenario
  have h5 := Option.some.inj h4
  subst h5
  have h6 := Option.some.inj h2
  subst h6
  exact ⟨_, _, h1, rfl, rfl, rfl⟩

/-- C3 as stated fails: with a destination of `2^63 - 2` bytes positioned at its end, on
which one more byte can be written before the offset limit is reached,
`totalSize = 2^63 - 1` and a body delivered in two reads of one byte, `initialSize` is
`2^63 - 2` and the handler receives `2^63 - 1`, then `-2^63` (the second write is refused
and the call returns the copy error): the second value is not
`initialSize + 1 + 1 = 2^63` and the sequence decreases. -/
theorem C3_counterexample :
    ∃ dst, dst.content = List.replicate 9223372036854775806 0 ++ [1] ∧
      DownloadPackage (answering 206 [⟨[1], none⟩, ⟨[1], none⟩]) "http://host/pkg"
          (some (zerosUpTo 9223372036854775806 1
            (.other "write /tmp/pkg.part: invalid argument")))
          9223372036854775807 (some recordCalls) [] =
        some ⟨some (.other ("Cannot read response body from http://host/pkg : "
              ++ "write /tmp/pkg.part: invalid argument")),
          some dst,
          [(9223372036854775807, 9223372036854775807),
            (9223372036854775807, -9223372036854775808)],
          [.NewRequest "GET" "http://host/pkg",
            .Do ⟨0⟩ ⟨"GET", "http://host/pkg", [("Range", "bytes=9223372036854775806-")]⟩],
          some ⟨[], [1, 1], 1⟩⟩ ∧
      initialSizeOf (zerosUpTo 9223372036854775806 1
          (.other "write /tmp/pkg.part: invalid argument")).Stat 9223372036854775807
        = 9223372036854775806 ∧
      (-9223372036854775808 : Int) ≠
        initialSizeOf (zerosUpTo 9223372036854775806 1
          (.other "write /tmp/pkg.part: invalid argument")).Stat 9223372036854775807 + 1 + 1 ∧
      ¬ ((9223372036854775807 : Int) ≤ -9223372036854775808) := by
  have hi : initialSizeOf (zerosUpTo 9223372036854775806 1
      (.other "write /tmp/pkg.part: invalid argument")).Stat 9223372036854775807
      = 9223372036854775806 := by
    rw [zerosUpTo_stat]; decide
  have hpos : (zerosUpTo 9223372036854775806 1
      (.other "write /tmp/pkg.part: invalid argument")).offset
      = (zerosUpTo 9223372036854775806 1
        (.other "write /tmp/pkg.part: invalid argument")).content.length := by
    simp only [zerosUpTo, List.length_replicate]
  obtain ⟨dst, hc, hdp⟩ := DownloadPackage_second_refused 206 [1] [1] "http://host/pkg"
    (zerosUpTo 9223372036854775806 1 (.other "write /tmp/pkg.part: invalid argument"))
    9223372036854775807 (.other "write /tmp/pkg.part: invalid argument") recordCalls []
    (Or.inr (Or.inl rfl)) (by decide) (by decide) (by decide) (by decide) rfl hpos
  refine ⟨dst, hc, ?_, hi, ?_, by decide⟩
  · rw [hdp, hi]
    rfl
  · rw [hi]
    decide

/-- C4: `ProgressProxyReader.Read(p)` returns the count, the error and the buffer of the
embedded reader's `Read(p)`, leaves the embedded reader in the state that read left it in,
and applies the callback once, to that count (a callback that logs its arguments has
logged exactly the count); so reading a sequence of buffers through the wrapper gives the
same results, read for read, as reading the source directly. -/
theorem C4_proxy_read_is_transparent {ρ η : Type} (r : ProgressProxyReader ρ η)
    (p : List Byte) (s : ρ) (e : η) :
    (r.Read p (s, e)).1 = (r.Reader p s).1 ∧
    (r.Read p (s, e)).2 = ((r.Reader p s).2, r.handleProgressUpdateFunc (r.Reader p s).1.n e) ∧
    (∀ log : List Int,
      ((ProgressProxyReader.Read ⟨r.Reader, fun n l => l ++ [n]⟩ p (s, log)).2).2
        = log ++ [(r.Reader p s).1.n]) ∧
    (∀ bufs : List (List Byte), readSeq r.Read bufs (s, e) = readSeq r.Reader bufs s) := by
  refine ⟨rfl, rfl, fun _ => rfl, ?_⟩
  intro bufs
  induction bufs generalizing s e with
  | nil => rfl
  | cons q qs ih =>
    simp only [readSeq]
    exact congrArg _ (ih _ _)

/-- C5: on a destination positioned at its end, with prior content `c`, the content after
the call is `c` followed by a prefix `w` of the bytes of the response body, and the
position is again the end, in every outcome. Once a response is received, `w` is exactly
the bytes delivered by the reads made on the body, as far as the device took them
(all of them without a write limit, the first `n` of them if the device takes `n` more
bytes): nothing written is taken back, also when the copy fails. If the call returns nil,
`w` is the whole body; if the copy fails, the error is
"Cannot read response body from <URL> : ..."; if the call fails before the copy (request
not built, transport failure, refused status) `w` is empty and the destination is
untouched. -/
theorem C5_destination_append_only {η : Type} (net : Net) (URL : String) (file : File)
    (totalSize : Int) (handler : Option (DownloadPackageProgressChangedHandler η)) (h0 : η)
    (hpos : file.offset = file.content.length) :
    ∃ out dst w, DownloadPackage net URL (some file) totalSize handler h0 = some out ∧
      out.file = some dst ∧ dst.content = file.content ++ w ∧
      dst.offset = dst.content.length ∧
      (∀ resp, net.parseErr URL = none →
        net.roundTrip ⟨timeoutOf totalSize (initialSizeOf file.Stat totalSize)⟩
          (requestOf URL (initialSizeOf file.Stat totalSize)) = .ok resp →
        w <+: streamBytes resp.Body ∧
        (∃ body, out.body = some body ∧
          w = accepted file.room ((streamBytes resp.Body).take body.served.sum.toNat)) ∧
        (out.err = none → w = streamBytes resp.Body) ∧
        ((resp.StatusCode = 200 ∨ resp.StatusCode = 206 ∨ resp.StatusCode = 416) →
          out.err ≠ none → ∃ e : GoError, out.err =
            some (.other ("Cannot read response body from " ++ URL ++ " : " ++ e.Error)))) ∧
      (out.err = none → ∃ resp, net.parseErr URL = none ∧
        net.roundTrip ⟨timeoutOf totalSize (initialSizeOf file.Stat totalSize)⟩
          (requestOf URL (initialSizeOf file.Stat totalSize)) = .ok resp) ∧
      ((net.parseErr URL ≠ none ∨
        (∃ e, net.roundTrip ⟨timeoutOf totalSize (initialSizeOf file.Stat totalSize)⟩
          (requestOf URL (initialSizeOf file.Stat totalSize)) = .error e) ∨
        (∃ resp, net.roundTrip ⟨timeoutOf totalSize (initialSizeOf file.Stat totalSize)⟩
          (requestOf URL (initialSizeOf file.Stat totalSize)) = .ok resp ∧
          resp.StatusCode ≠ 200 ∧ resp.StatusCode ≠ 206 ∧ resp.StatusCode ≠ 416)) →
        w = [] ∧ dst = file ∧ out.err ≠ none) := by
  rcases DownloadPackage_cases net URL file totalSize handler h0 with
    ⟨e, he, h⟩ | ⟨hp, ⟨e, he, h⟩ | ⟨resp, hresp, ⟨hst, h⟩ | ⟨hst, r, hr, h⟩⟩⟩
  · refine ⟨_, file, [], h, rfl, by simp, hpos, ?_, ?_, ?_⟩
    · intro resp hp2
      rw [he] at hp2; cases hp2
    · intro hc; simp at hc
    · intro _; exact ⟨rfl, rfl, by simp⟩
  · refine ⟨_, file, [], h, rfl, by simp, hpos, ?_, ?_, ?_⟩
    · intro resp _ hr2
      rw [he] at hr2; cases hr2
    · intro hc; simp at hc
    · intro _; exact ⟨rfl, rfl, by simp⟩
  · refine ⟨_, file, [], h, rfl, by simp, hpos, ?_, ?_, ?_⟩
    · intro resp2 _ hr2
      rw [hresp] at hr2; cases hr2
      refine ⟨List.nil_prefix, ⟨_, rfl, ?_⟩, fun hc => by simp at hc,
        fun hok => absurd hok hst⟩
      cases file.room <;> simp [accepted]
    · intro hc; simp at hc
    · intro _; exact ⟨rfl, rfl, by simp⟩
  · obtain ⟨-, hserved, -, -, wr, hwr1, hwr2, hwr3, hwr4⟩ := copyLoop_body _ _ _ _ _ r rfl hr
    have hw := copyLoop_written _ _ _ _ _ r rfl hpos hr
    simp only [List.nil_append] at hserved
    have hcont := hwr3 hpos
    refine ⟨_, r.dst, wr, h, rfl, hcont, ?_, ?_, ?_, ?_⟩
    · rw [hwr2, hcont, hpos, List.length_append]
    · intro resp2 _ hr2
      rw [hresp] at hr2; cases hr2
      refine ⟨hwr1, ⟨r.src.Close, rfl, ?_⟩, ?_, ?_⟩
      · simp only [Body.Close, hserved]
        exact List.append_cancel_left (hcont.symm.trans hw)
      · intro hc
        cases hre : r.err with
        | none => exact (hwr4 hre).1
        | some e => simp [hre] at hc
      · intro _ hne
        cases hre : r.err with
        | none => simp [hre] at hne
        | some e => exact ⟨e, by simp [hre, copyError]⟩
    · intro _; exact ⟨resp, hp, hresp⟩
    · rintro (h1 | ⟨e, h1⟩ | ⟨resp2, h1, h2⟩)
      · exact absurd hp h1
      · rw [hresp] at h1; cases h1
      · rw [hresp] at h1; cases h1
        exfalso
        unfold okStatus at hst
        omega

/-- C5 on two runs. Scenario 6 of the specification (1000 bytes there, 4000 bytes
delivered): the call returns nil and the destination holds its 1000 prior bytes followed by
the 4000 bytes of the body. A copy that fails part-way (3 bytes there, the body delivers
`[1, 2]` then `[3]`, the device takes two more bytes): the call returns the copy error and
the destination holds its 3 prior bytes followed by `[1, 2]`. -/
theorem C5_witness :
    ((zeros 1000).offset = (zeros 1000).content.length ∧
      ∃ out dst,
        DownloadPackage (answering 206 [⟨List.replicate 4000 1, none⟩]) "http://host/pkg"
          (some (zeros 1000)) 5000 (some recordCalls) [] = some out ∧
        out.err = none ∧ out.file = some dst ∧
        dst.content = (zeros 1000).content ++ List.replicate 4000 1 ∧
        dst.content.length = 5000) ∧
    ((zerosUpTo 3 2 (.other "write /tmp/pkg.part: no space left on device")).offset =
        (zerosUpTo 3 2 (.other "write /tmp/pkg.part: no space left on device")).content.length ∧
      ∃ out dst,
        DownloadPackage (answering 200 [⟨[1, 2], none⟩, ⟨[3], none⟩]) "http://host/pkg"
          (some (zerosUpTo 3 2 (.other "write /tmp/pkg.part: no space left on device")))
          6 (some recordCalls) [] = some out ∧
        out.err = some (.other ("Cannot read response body from http://host/pkg : "
          ++ "write /tmp/pkg.part: no space left on device")) ∧
        out.file = some dst ∧ dst.content = [0, 0, 0, 1, 2]) := by
  constructor
  · have hpos : (zeros 1000).offset = (zeros 1000).content.length := by
      simp only [zeros, List.length_replicate]
    refine ⟨hpos, ?_⟩
    obtain ⟨out, dst, w, h1, h2, h3, -, h4, -, -⟩ :=
      C5_destination_append_only (answering 206 [⟨List.replicate 4000 1, none⟩])
        "http://host/pkg" (zeros 1000) 5000 (some recordCalls) [] hpos
    obtain ⟨-, -, h6, -⟩ := h4 ⟨206, [⟨List.replicate 4000 1, none⟩]⟩
      (answering_parseErr _ _ _) (answering_roundTrip _ _ _ _)
    have hb : streamBytes [⟨List.replicate 4000 1, none⟩] = List.replicate 4000 1 := by
      simp only [streamBytes, List.append_nil]
    rw [hb] at h6
    have herr : out.err = none := by
      have h7 := Option.some.inj (h1.symm.trans DownloadPackage_resume_scenario)
      rw [h7]
    have hw := h6 herr
    subst hw
    refine ⟨out, dst, h1, herr, h2, h3, ?_⟩
    rw [h3]
    simp only [zeros, List.length_append, List.length_replicate]
  · have hpos : (zerosUpTo 3 2 (.other "write /tmp/pkg.part: no space left on device")).offset =
        (zerosUpTo 3 2
          (.other "write /tmp/pkg.part: no space left on device")).content.length := rfl
    refine ⟨hpos, ?_⟩
    obtain ⟨out, dst, w, h1, h2, h3, -, h4, -, -⟩ :=
      C5_destination_append_only (answering 200 [⟨[1, 2], none⟩, ⟨[3], none⟩])
        "http://host/pkg" (zerosUpTo 3 2 (.other "write /tmp/pkg.part: no space left on device"))
        6 (some recordCalls) [] hpos
    obtain ⟨dst2, -, hdp⟩ := DownloadPackage_second_refused 200 [1, 2] [3] "http://host/pkg"
      (zerosUpTo 3 2 (.other "write /tmp/pkg.part: no space left on device")) 6
      (.other "write /tmp/pkg.part: no space left on device") recordCalls []
      (Or.inl rfl) (by decide) (by decide) (by decide) (by decide) rfl hpos
    obtain ⟨-, ⟨body, hbody, hw⟩, -, -⟩ := h4 ⟨200, [⟨[1, 2], none⟩, ⟨[3], none⟩]⟩
      (answering_parseErr _ _ _) (answering_roundTrip _ _ _ _)
    have h7 := Option.some.inj (h1.symm.trans hdp)
    subst h7
    have h8 := Option.some.inj hbody
    subst h8
    refine ⟨_, dst, h1, rfl, h2, ?_⟩
    rw [h3, hw]
    rfl

/-- C6: with a nil destination `DownloadPackage` returns the error
"Cannot fill a nil file pointer"; no request is built or sent, the progress handler is not
invoked (its state is the one at the call) and there is no response body. -/
theorem C6_nil_destination {η : Type} (net : Net) (URL : String) (totalSize : Int)
    (handler : Option (DownloadPackageProgressChangedHandler η)) (h0 : η) :
    DownloadPackage net URL none totalSize handler h0 =
      some ⟨some (.other "Cannot fill a nil file pointer"), none, h0, [], none⟩ := by
  rfl

/-- C7, as amended: for a 64-bit `totalSize` the timeout carried by the `Do` call is
`((totalSize - initialSize) / 57344) * 10^9` reduced to a signed 64-bit integer (truncating
division); it is that product itself whenever
`-528905046089728 < totalSize - initialSize < 528905046089728` (`9223372037 * 57344`). -/
theorem C7_timeout_wraps {η : Type} (net : Net) (URL : String) (file : File)
    (totalSize : Int) (handler : Option (DownloadPackageProgressChangedHandler η)) (h0 : η)
    (ht : isInt64 totalSize) (hparse : net.parseErr URL = none) :
    ∃ out request timeout,
      DownloadPackage net URL (some file) totalSize handler h0 = some out ∧
      out.http = [.NewRequest "GET" URL, .Do ⟨timeout⟩ request] ∧
      timeout = wrapInt64
        (Int.tdiv (totalSize - initialSizeOf file.Stat totalSize) 57344 * 1000000000) ∧
      (-528905046089728 < totalSize - initialSizeOf file.Stat totalSize →
        totalSize - initialSizeOf file.Stat totalSize < 528905046089728 →
        timeout =
          Int.tdiv (totalSize - initialSizeOf file.Stat totalSize) 57344 * 1000000000) := by
  have hi := initialSizeOf_stat file totalSize
  obtain ⟨out, hout, hhttp⟩ := DownloadPackage_http net URL file totalSize handler h0 hparse
  have h := timeoutOf_exact totalSize _ ht hi.1 hi.2
  exact ⟨out, _, _, hout, hhttp, h.1, h.2⟩

/-- C7 at a destination of 1000 bytes with `totalSize = 1000000`: the timeout is 17 s. -/
theorem C7_witness :
    isInt64 1000000 ∧ unreachable.parseErr "http://host/pkg" = none ∧
    ∃ out request,
      DownloadPackage unreachable "http://host/pkg" (some (zeros 1000)) 1000000
        (none : Option (DownloadPackageProgressChangedHandler Unit)) () = some out ∧
      out.http = [.NewRequest "GET" "http://host/pkg", .Do ⟨17000000000⟩ request] := by
  refine ⟨by decide, rfl, ?_⟩
  obtain ⟨out, request, timeout, h1, h2, -, h3⟩ :=
    C7_timeout_wraps unreachable "http://host/pkg" (zeros 1000) 1000000
      (none : Option (DownloadPackageProgressChangedHandler Unit)) () (by decide) rfl
  have hi : initialSizeOf (zeros 1000).Stat 1000000 = 1000 := by
    rw [zeros_stat]; decide
  rw [hi] at h3
  have h0 : timeout = 17000000000 := by
    rw [h3 (by decide) (by decide)]; decide
  subst h0
  exact ⟨out, request, h1, h2⟩

/-- C7 as stated fails: with an empty destination and `totalSize = 2^50` (64-bit), the
request is issued with a timeout of 1187392136290448384 ns, which is not
`((totalSize - initialSize) / 57344) * 10^9 = 19634136210000000000`. -/
theorem C7_counterexample :
    isInt64 1125899906842624 ∧
    DownloadPackage unreachable "http://host/pkg" (some (zeros 0)) 1125899906842624
        (none : Option (DownloadPackageProgressChangedHandler Unit)) () =
      some ⟨some (.other ("Cannot fetch http://host/pkg Response creation error: "
            ++ "dial tcp: connection refused")),
        some (zeros 0), (),
        [.NewRequest "GET" "http://host/pkg",
          .Do ⟨1187392136290448384⟩ ⟨"GET", "http://host/pkg", []⟩],
        none⟩ ∧
    initialSizeOf (zeros 0).Stat 1125899906842624 = 0 ∧
    (1187392136290448384 : Int) ≠
      Int.tdiv (1125899906842624 - initialSizeOf (zeros 0).Stat 1125899906842624) 57344
        * 1000000000 := by
  refine ⟨by decide, ?_, by decide, by decide⟩
  rfl

/-- C8: a 416 response is handled exactly as a 200 or a 206 response: relabelling every
416 answer of the network as 200 (or as 206) changes nothing in what the call returns and
leaves behind. On a 416 response the body is stream-copied: at least one read is made on
it, the destination (positioned at its end) holds afterwards its prior content followed by
the bytes delivered by the reads made, as far as the device took them, and by the whole
body if the call returns nil; the call returns nil exactly when the copy of the body to
the destination does; with a handler, the handler is called once per read with the
running total (reduced to 64 bits). When the body of the 416 response is empty, the call
returns nil, the destination is unchanged and the body has been read once (0 bytes) and
closed. -/
theorem C8_status_416_proceeds {η : Type} (net : Net) (URL : String)
    (initialData : Option File) (totalSize : Int)
    (handler : Option (DownloadPackageProgressChangedHandler η)) (h0 : η) :
    DownloadPackage (net.replaceStatus 416 200) URL initialData totalSize handler h0
      = DownloadPackage net URL initialData totalSize handler h0 ∧
    DownloadPackage (net.replaceStatus 416 206) URL initialData totalSize handler h0
      = DownloadPackage net URL initialData totalSize handler h0 ∧
    (∀ file, initialData = some file → net.parseErr URL = none →
      net.roundTrip ⟨timeoutOf totalSize (initialSizeOf file.Stat totalSize)⟩
        (requestOf URL (initialSizeOf file.Stat totalSize)) = .ok ⟨416, []⟩ →
      ∃ out, DownloadPackage net URL initialData totalSize handler h0 = some out ∧
        out.err = none ∧ out.file = some file ∧ out.body = some ⟨[], [0], 1⟩) ∧
    (∀ file resp, initialData = some file → file.offset = file.content.length →
      net.parseErr URL = none →
      net.roundTrip ⟨timeoutOf totalSize (initialSizeOf file.Stat totalSize)⟩
        (requestOf URL (initialSizeOf file.Stat totalSize)) = .ok resp →
      resp.StatusCode = 416 →
      ∃ out dst body r,
        DownloadPackage net URL initialData totalSize handler h0 = some out ∧
        out.file = some dst ∧ out.body = some body ∧ body.served ≠ [] ∧
        dst.content = file.content ++ accepted file.room
          ((streamBytes resp.Body).take body.served.sum.toNat) ∧
        (out.err = none → dst.content = file.content ++ streamBytes resp.Body) ∧
        ioCopy (Body.readBound ⟨resp.Body, [], 0⟩) Body.Read file ⟨resp.Body, [], 0⟩
          = some r ∧
        r.dst = dst ∧ (out.err = none ↔ r.err = none) ∧
        out.progress =
          match handler with
          | none => h0
          | some h =>
            ((runningTotals (initialSizeOf file.Stat totalSize) body.served).map
              wrapInt64).foldl (fun e d => h totalSize d e) h0) := by
  refine ⟨?_, ?_, ?_, ?_⟩
  · cases initialData with
    | none => rfl
    | some file =>
      simp only [DownloadPackage, Net.NewRequest, Net.replaceStatus]
      cases net.parseErr URL with
      | some e => rfl
      | none =>
        simp only
        generalize net.roundTrip _ _ = rt
        cases rt with
        | error e => rfl
        | ok resp =>
          simp only
          by_cases hc : resp.StatusCode = 416
          · simp [hc]
          · simp [hc]
  · cases initialData with
    | none => rfl
    | some file =>
      simp only [DownloadPackage, Net.NewRequest, Net.replaceStatus]
      cases net.parseErr URL with
      | some e => rfl
      | none =>
        simp only
        generalize net.roundTrip _ _ = rt
        cases rt with
        | error e => rfl
        | ok resp =>
          simp only
          by_cases hc : resp.StatusCode = 416
          · simp [hc]
          · simp [hc]
  · intro file hf hparse hrt
    subst hf
    obtain ⟨r, hr, hdp⟩ := DownloadPackage_copy net URL file totalSize handler h0 ⟨416, []⟩
      hparse hrt (Or.inr (Or.inr rfl))
    have hr2 : ioCopy (Body.readBound ⟨[], [], 0⟩) Body.Read file ⟨[], [], 0⟩
        = some ⟨0, none, file, ⟨[], [0], 0⟩⟩ := rfl
    rw [hr2] at hr
    cases hr
    exact ⟨_, hdp, rfl, rfl, rfl⟩
  · intro file resp hf hpos hparse hrt h416
    subst hf
    obtain ⟨r, hr, hdp⟩ := DownloadPackage_copy net URL file totalSize handler h0 resp
      hparse hrt (Or.inr (Or.inr h416))
    obtain ⟨-, hserved, -, -, wr, -, -, hwr3, hwr4⟩ := copyLoop_body _ _ _ _ _ r rfl hr
    have hw := copyLoop_written _ _ _ _ _ r rfl hpos hr
    simp only [List.nil_append] at hserved
    refine ⟨_, r.dst, r.src.Close, r, hdp, rfl, rfl, ?_, ?_, ?_, hr, rfl, ?_, ?_⟩
    · simp only [Body.Close, hserved]
      exact copyCounts_ne_nil _ _ _ _ _ _
    · simp only [Body.Close, hserved]
      exact hw
    · intro hc
      cases hre : r.err with
      | none => rw [hwr3 hpos, (hwr4 hre).1]
      | some e => simp [hre] at hc
    · cases hre : r.err <;> simp [hre]
    · cases handler with
      | none => rfl
      | some h =>
        simp only [Body.Close, hserved, progressAfter]
        exact progressClosure_foldl totalSize h _ _ _ h0 (fun _ => rfl)

/-- C8 on a 416 answer whose body is not empty (3 bytes there, `totalSize = 3`, the body
delivers `[1, 2, 3]`): the call returns nil, the three bytes are appended to the
destination and the handler is called for both reads, with `initialSize = 0`. -/
theorem C8_witness :
    ∃ out dst body,
      DownloadPackage (answering 416 [⟨[1, 2, 3], none⟩]) "http://host/pkg"
        (some (zeros 3)) 3 (some recordCalls) [] = some out ∧
      out.err = none ∧ out.file = some dst ∧ dst.content = [0, 0, 0, 1, 2, 3] ∧
      out.body = some body ∧ body.served = [3, 0] ∧ body.closed = 1 ∧
      out.progress = [(3, 3), (3, 3)] := by
  obtain ⟨out, dst, body, r, h1, h2, h3, -, -, h4, -, -, -, h5⟩ :=
    (C8_status_416_proceeds (answering 416 [⟨[1, 2, 3], none⟩]) "http://host/pkg"
      (some (zeros 3)) 3 (some recordCalls) []).2.2.2 (zeros 3) ⟨416, [⟨[1, 2, 3], none⟩]⟩
      rfl rfl (answering_parseErr _ _ _) (answering_roundTrip _ _ _ _) rfl
  have hdp := DownloadPackage_one_delivery 416 [1, 2, 3] "http://host/pkg" (zeros 3) 3
    recordCalls [] (Or.inr (Or.inr rfl)) (by decide) (by decide) rfl
  have h7 := Option.some.inj (h1.symm.trans hdp)
  subst h7
  have h8 := Option.some.inj h3
  subst h8
  refine ⟨_, dst, _, h1, rfl, h2, ?_, rfl, rfl, rfl, ?_⟩
  · rw [h4 rfl]
    rfl
  · rw [h5]
    rfl

/-- C9: every call returns, and if executing the request yielded a response then the
response body has been closed exactly once at the return, whatever the status code and
whether the copy failed or not; if there is no response (nil destination, the request
cannot be built, or the transport fails) there is no body and nothing is closed. -/
theorem C9_body_closed_once {η : Type} (net : Net) (URL : String)
    (initialData : Option File) (totalSize : Int)
    (handler : Option (DownloadPackageProgressChangedHandler η)) (h0 : η) :
    ∃ out, DownloadPackage net URL initialData totalSize handler h0 = some out ∧
      (∀ file resp, initialData = some file → net.parseErr URL = none →
        net.roundTrip ⟨timeoutOf totalSize (initialSizeOf file.Stat totalSize)⟩
          (requestOf URL (initialSizeOf file.Stat totalSize)) = .ok resp →
        ∃ body, out.body = some body ∧ body.closed = 1) ∧
      ((initialData = none ∨ net.parseErr URL ≠ none ∨
          ∃ file e, initialData = some file ∧
            net.roundTrip ⟨timeoutOf totalSize (initialSizeOf file.Stat totalSize)⟩
              (requestOf URL (initialSizeOf file.Stat totalSize)) = .error e) →
        out.body = none) := by
  cases initialData with
  | none =>
    refine ⟨_, rfl, ?_, fun _ => rfl⟩
    intro file resp h
    cases h
  | some file =>
    rcases DownloadPackage_cases net URL file totalSize handler h0 with
      ⟨e, he, h⟩ | ⟨hp, ⟨e, he, h⟩ | ⟨resp, hresp, ⟨hst, h⟩ | ⟨hst, r, hr, h⟩⟩⟩
    · refine ⟨_, h, ?_, fun _ => rfl⟩
      intro file2 resp2 _ hp2
      rw [he] at hp2; cases hp2
    · refine ⟨_, h, ?_, fun _ => rfl⟩
      intro file2 resp2 hf _ hr2
      cases hf
      rw [he] at hr2; cases hr2
    · refine ⟨_, h, ?_, ?_⟩
      · intro file2 resp2 hf _ hr2
        exact ⟨_, rfl, rfl⟩
      · rintro (h1 | h1 | ⟨file2, e, hf, hr2⟩)
        · cases h1
        · exact absurd hp h1
        · cases hf
          rw [hresp] at hr2; cases hr2
    · obtain ⟨hcl, -⟩ := copyLoop_body _ _ _ _ _ r rfl hr
      refine ⟨_, h, ?_, ?_⟩
      · intro file2 resp2 hf _ hr2
        refine ⟨_, rfl, ?_⟩
        simp [Body.Close, hcl]
      · rintro (h1 | h1 | ⟨file2, e, hf, hr2⟩)
        · cases h1
        · exact absurd hp h1
        · cases hf
          rw [hresp] at hr2; cases hr2

/-- C10: for a 64-bit `totalSize` and an `initialSize` with `0 <= initialSize` and
(`initialSize < totalSize` or `initialSize = 0`), the timeout, computed with truncating
division and wrap-around multiplication, is zero exactly when
`-57344 < totalSize - initialSize < 57344`; the `initialSize` derived from the destination
is of that kind, and the `Do` call of `DownloadPackage` carries that timeout. -/
theorem C10_timeout_zero_iff {η : Type} (net : Net) (URL : String) (file : File)
    (totalSize : Int) (handler : Option (DownloadPackageProgressChangedHandler η)) (h0 : η)
    (ht : isInt64 totalSize) (hparse : net.parseErr URL = none) :
    (∀ i, 0 ≤ i → (i < totalSize ∨ i = 0) →
      (timeoutOf totalSize i = 0 ↔ -57344 < totalSize - i ∧ totalSize - i < 57344)) ∧
    (0 ≤ initialSizeOf file.Stat totalSize ∧
      (initialSizeOf file.Stat totalSize < totalSize ∨ initialSizeOf file.Stat totalSize = 0)) ∧
    ∃ out request timeout,
      DownloadPackage net URL (some file) totalSize handler h0 = some out ∧
      out.http = [.NewRequest "GET" URL, .Do ⟨timeout⟩ request] ∧
      (timeout = 0 ↔
        -57344 < totalSize - initialSizeOf file.Stat totalSize ∧
        totalSize - initialSizeOf file.Stat totalSize < 57344) := by
  have hi := initialSizeOf_stat file totalSize
  refine ⟨fun i h1 h2 => timeoutOf_eq_zero_iff totalSize i ht h1 h2, hi, ?_⟩
  obtain ⟨out, hout, hhttp⟩ := DownloadPackage_http net URL file totalSize handler h0 hparse
  exact ⟨out, _, _, hout, hhttp, timeoutOf_eq_zero_iff totalSize _ ht hi.1 hi.2⟩

/-- C10 at a destination of 1000 bytes with `totalSize = 5000`: 4000 bytes remain and the
request is issued with a zero timeout. -/
theorem C10_witness :
    isInt64 5000 ∧ (answering 206 []).parseErr "http://host/pkg" = none ∧
    ∃ out request,
      DownloadPackage (answering 206 []) "http://host/pkg" (some (zeros 1000)) 5000
        (none : Option (DownloadPackageProgressChangedHandler Unit)) () = some out ∧
      out.http = [.NewRequest "GET" "http://host/pkg", .Do ⟨0⟩ request] := by
  refine ⟨by decide, rfl, ?_⟩
  obtain ⟨-, -, out, request, timeout, h1, h2, h3⟩ :=
    C10_timeout_zero_iff (answering 206 []) "http://host/pkg" (zeros 1000) 5000
      (none : Option (DownloadPackageProgressChangedHandler Unit)) () (by decide) rfl
  have hi : initialSizeOf (zeros 1000).Stat 5000 = 1000 := by
    rw [zeros_stat]; decide
  have h0 : timeout = 0 := h3.mpr (by rw [hi]; decide)
  subst h0
  exact ⟨out, request, h1, h2⟩

end Common
